import Mathlib

/-! TURN relay socket (`socket/udp-turn.c`)

A shallow embedding of the TURN relay shim of libnice: the per-peer channel
binding state (`turn_priv`), `nice_udp_turn_socket_set_peer`,
`nice_udp_turn_socket_parse_recv`, `socket_recv` and `socket_send`.

Conventions of the embedding:

* bytes are natural numbers (a well-formed byte is `< 256`); buffers are lists;
* `uint16_t`, `guint` and `gint` are `Nat`/`Int` with explicit reduction modulo
  `2^16` / `2^32` at the places where the C code truncates or converts;
* the base transport is an output log: every function returns the list of
  datagrams it handed to `nice_socket_send`, oldest first;
* the STUN message library (`stun/stunagent.h`) is not part of the sources, so
  it is a parameter (`StunLib`) of every function that calls it.
-/

namespace UdpTurn

/-! ## Data model -/

/-- Modelled from the spec: `NiceAddress` and `nice_address_equal` live in
`agent/address.c`, which is not among the sources.  The spec describes an
endpoint as a family-tagged IP+port pair whose equality compares family,
address bytes and port. -/
structure NiceAddress where
  family : Nat
  addr : List Nat
  port : Nat
deriving DecidableEq

/-- Modelled from the spec: equality of endpoints compares family, address
bytes and port. -/
def nice_address_equal (a b : NiceAddress) : Bool := decide (a = b)

/-- The record `ChannelBinding` of `udp-turn.c`; `channel` is a `uint16_t`. -/
structure ChannelBinding where
  peer : NiceAddress
  channel : Nat
deriving DecidableEq

/-- Modelled from the spec: the enumeration `NiceUdpTurnSocketCompatibility`
is declared in `udp-turn.h`, which is not among the sources; the spec lists the
three dialects. -/
inductive NiceUdpTurnSocketCompatibility where
  | DRAFT9
  | MSN
  | GOOGLE
deriving DecidableEq

/-- Modelled from the spec: the STUN message classes compared by
`nice_udp_turn_socket_parse_recv`; the enumeration is declared in the STUN
library headers, which are not among the sources. -/
inductive StunClass where
  | STUN_REQUEST
  | STUN_INDICATION
  | STUN_RESPONSE
  | STUN_ERROR
deriving DecidableEq

/-- Modelled from the spec: the STUN methods named in `udp-turn.c`.  The
enumeration is declared in the STUN library headers, which are not among the
sources; the spec lists `CHANNELBIND`, `SEND`, `OLD_SET_ACTIVE_DESTINATION`
and `IND_DATA` as separate method identifiers.  `OTHER` stands for every
method the file does not name. -/
inductive StunMethod where
  | STUN_SEND
  | STUN_OLD_SET_ACTIVE_DST
  | STUN_CHANNELBIND
  | STUN_IND_DATA
  | STUN_IND_SEND
  | OTHER (code : Nat)
deriving DecidableEq

/-- Modelled from the spec: the STUN attributes named in `udp-turn.c`; the
enumeration is declared in the STUN library headers, which are not among the
sources. -/
inductive StunAttr where
  | CHANNEL_NUMBER
  | PEER_ADDRESS
  | REMOTE_ADDRESS
  | DESTINATION_ADDRESS
  | DATA
  | USERNAME
  | REALM
  | NONCE
  | OPTIONS
  | MAGIC_COOKIE
deriving DecidableEq

/-- The STUN message library used by `udp-turn.c`, taken as a parameter since
its code is not among the sources.  `Agent` is the state of a `StunAgent`,
`Msg` a `StunMessage` together with the buffer that backs it.

* the two `init` functions return `none` where the C function returns false;
* the `append` functions return the C return code (`0` is success) and the
  message after the call;
* `stun_agent_finish_message` returns the first `stun_len` bytes of the
  buffer, so `stun_len` is the length of the returned list;
* `stun_agent_validate` returns `some msg` for `STUN_VALIDATION_SUCCESS`;
* the `find` functions return `some` where the C function reports success
  (`find32`, `find_addr`, `find_xor_addr` return 0; `find` returns non-NULL);
* the address functions take and return a `NiceAddress`: the conversion
  through `struct sockaddr_storage` is folded into them. -/
structure StunLib (Agent Msg : Type) where
  STUN_MAX_MESSAGE_SIZE : Nat
  TURN_MAGIC_COOKIE : Nat
  stun_agent_init_request : Agent → StunMethod → Agent × Option Msg
  stun_agent_init_indication : Agent → StunMethod → Agent × Option Msg
  stun_message_append32 : Msg → StunAttr → Nat → Int × Msg
  stun_message_append_bytes : Msg → StunAttr → List Nat → Int × Msg
  stun_message_append_addr : Msg → StunAttr → NiceAddress → Int × Msg
  stun_message_append_xor_addr : Msg → StunAttr → NiceAddress → Int × Msg
  stun_agent_finish_message : Agent → Msg → Option (List Nat) → Agent × List Nat
  stun_agent_validate : Agent → List Nat → Nat → Agent × Option Msg
  stun_message_get_class : Msg → StunClass
  stun_message_get_method : Msg → StunMethod
  stun_message_find32 : Msg → StunAttr → Option Nat
  stun_message_find : Msg → StunAttr → Option (List Nat)
  stun_message_find_addr : Msg → StunAttr → Option NiceAddress
  stun_message_find_xor_addr : Msg → StunAttr → Option NiceAddress

/-- The record `turn_priv` of `udp-turn.c`.  `channels` is the `GList` of
committed bindings in list order, `current_binding` the pending binding
(`none` for `NULL`).  `username`/`password` are `none` for a `NULL` pointer.
The base socket is represented by the datagrams sent on it (see `Result`);
the `retransmissions` list is never used by the code. -/
structure turn_priv (Agent : Type) where
  agent : Agent
  channels : List ChannelBinding
  current_binding : Option ChannelBinding
  server_addr : NiceAddress
  username : Option (List Nat)
  password : Option (List Nat)
  compatibility : NiceUdpTurnSocketCompatibility
deriving DecidableEq

/-- One call of `nice_socket_send` on the base socket. -/
structure Datagram where
  to_ : NiceAddress
  bytes : List Nat
deriving DecidableEq

/-- Outcome of a call that returns a `gboolean`: the return value, the state
afterwards and the datagrams sent on the base socket during the call. -/
structure Result (Agent : Type) where
  ret : Bool
  priv : turn_priv Agent
  sent : List Datagram
deriving DecidableEq

/-- Outcome of a receive call: the `gint` return value, the address written
through `from` (`none` when `*from` is not written), the user buffer
afterwards, the state afterwards and the datagrams sent during the call. -/
structure RecvResult (Agent : Type) where
  ret : Int
  from_ : Option NiceAddress
  buf : List Nat
  priv : turn_priv Agent
  sent : List Datagram
deriving DecidableEq

/-! ## Machine-level helpers -/

/-- Conversion of a `guint` value to `gint` (two's complement, 32 bits). -/
def toGint (n : Nat) : Int :=
  if n % 2 ^ 32 < 2 ^ 31 then ((n % 2 ^ 32 : Nat) : Int)
  else ((n % 2 ^ 32 : Nat) : Int) - 2 ^ 32

/-- Conversion of a `gint` value to `guint`, as in `(guint) recv_len`. -/
def toGuint (i : Int) : Nat := (i % 2 ^ 32).toNat

/-- The two bytes stored in memory for `htons (x)` with `x` truncated to
`uint16_t`: most significant byte first. -/
def htons_bytes (x : Nat) : List Nat := [(x % 65536) / 256, x % 256]

/-- The value `ntohs (((uint16_t *) p)[k])`: the big-endian 16-bit word at
byte offset `2 * k` of the buffer `p`. -/
def ntohs_at (p : List Nat) (k : Nat) : Nat :=
  (p.getD (2 * k) 0 % 256) * 256 + p.getD (2 * k + 1) 0 % 256

/-- The call `memmove (dst, src, n)`: the first `n` bytes of `dst` are
replaced by the first `n` bytes of `src`. -/
def memmove (dst src : List Nat) (n : Nat) : List Nat :=
  src.take n ++ dst.drop n

/-- The ChannelData frame that `socket_send` assembles in `buffer`: the
channel in network order, the payload length (truncated to `uint16_t`) in
network order, then the payload. -/
def channel_data_frame (channel : Nat) (buf : List Nat) : List Nat :=
  htons_bytes channel ++ htons_bytes buf.length ++ buf

/-- The test `priv->username != NULL && priv->username_len > 0`. -/
def has_username {Agent : Type} (priv : turn_priv Agent) : Option (List Nat) :=
  match priv.username with
  | some u => if 0 < u.length then some u else none
  | none => none

/-- The test `stun_message_find32 (&msg, STUN_ATTRIBUTE_OPTIONS, &options) == 0
&& options & 0x1` on the outcome of the lookup. -/
def options_bit0 (found : Option Nat) : Bool :=
  match found with
  | some options => decide (options % 2 = 1)
  | none => false

/-- The test `priv->current_binding &&
nice_address_equal (&priv->current_binding->peer, to)`. -/
def current_binding_is (cb : Option ChannelBinding) (to_ : NiceAddress) : Bool :=
  match cb with
  | some b => nice_address_equal b.peer to_
  | none => false

/-! ## Operations -/

/-- The test `!= 0` on the return code of an append call: `none` when the
call failed, the message after the call otherwise. -/
def append_ok {Msg : Type} (r : Int × Msg) : Option Msg :=
  if r.1 ≠ 0 then none else some r.2

/-- The optional USERNAME attribute: appended when
`priv->username != NULL && priv->username_len > 0`. -/
def append_username {Agent Msg : Type} (L : StunLib Agent Msg)
    (priv : turn_priv Agent) (m : Msg) : Option Msg :=
  match has_username priv with
  | some u => append_ok (L.stun_message_append_bytes m StunAttr.USERNAME u)
  | none => some m

/-- Copy attribute `t` from the response `resp` into `m`, when a response is
given and has the attribute (the REALM and NONCE blocks of
`priv_send_channel_bind`). -/
def append_from_resp {Agent Msg : Type} (L : StunLib Agent Msg)
    (resp : Option Msg) (t : StunAttr) (m : Msg) : Option Msg :=
  match resp with
  | some rp =>
    match L.stun_message_find rp t with
    | some v => append_ok (L.stun_message_append_bytes m t v)
    | none => some m
  | none => some m

/-- The attribute calls of `priv_send_channel_bind` between
`stun_agent_init_request` and `stun_agent_finish_message`, in source order;
`none` as soon as one of them makes the function return false. -/
def channel_bind_message {Agent Msg : Type} (L : StunLib Agent Msg)
    (priv : turn_priv Agent) (resp : Option Msg) (channel : Nat)
    (peer : NiceAddress) (init : Option Msg) : Option Msg := do
  let channel_attr := (channel * 65536) % 2 ^ 32
  let m0 ← init
  let m1 ← append_ok (L.stun_message_append32 m0 StunAttr.CHANNEL_NUMBER channel_attr)
  let m2 ← append_ok (L.stun_message_append_xor_addr m1 StunAttr.PEER_ADDRESS peer)
  let m3 ← append_username L priv m2
  let m4 ← append_from_resp L resp StunAttr.REALM m3
  append_from_resp L resp StunAttr.NONCE m4

/-- The function `priv_send_channel_bind`: build a CHANNELBIND request for
`(channel, peer)`, copying REALM and NONCE from `resp` when a response is
given, and send it to the server.  Returns false without sending as soon as a
library call fails or when the finished message is empty. -/
def priv_send_channel_bind {Agent Msg : Type} (L : StunLib Agent Msg)
    (priv : turn_priv Agent) (resp : Option Msg) (channel : Nat)
    (peer : NiceAddress) : Result Agent :=
  let ini := L.stun_agent_init_request priv.agent StunMethod.STUN_CHANNELBIND
  match channel_bind_message L priv resp channel peer ini.2 with
  | none => ⟨false, { priv with agent := ini.1 }, []⟩
  | some m =>
    let fin := L.stun_agent_finish_message ini.1 m priv.password
    if 0 < fin.2.length then
      ⟨true, { priv with agent := fin.1 }, [⟨priv.server_addr, fin.2⟩]⟩
    else ⟨false, { priv with agent := fin.1 }, []⟩

/-- The channel scan of `nice_udp_turn_socket_set_peer` (the `for` loop over
`priv->channels`).  `channel` is the `uint16_t` candidate, the list argument
is the cursor `i`.  On a collision the body sets `i = priv->channels`,
increments `channel` and executes `continue`, so the loop increment
`i = i->next` then moves the cursor to the second cell of the list.  The loop
need not terminate, hence the fuel: `none` means the fuel ran out. -/
def scan_channels (channels : List ChannelBinding) :
    Nat → Nat → List ChannelBinding → Option Nat
  | _, channel, [] => some channel
  | 0, _, _ :: _ => none
  | fuel + 1, channel, b :: rest =>
    if channel = b.channel then
      scan_channels channels fuel ((channel + 1) % 65536) channels.tail
    else
      scan_channels channels fuel channel rest

/-- The attribute calls of the MSN branch of `nice_udp_turn_socket_set_peer`
between `stun_agent_init_request` and `stun_agent_finish_message`; `none` as
soon as one of them makes the function return false. -/
def set_active_dst_message {Agent Msg : Type} (L : StunLib Agent Msg)
    (priv : turn_priv Agent) (peer : NiceAddress) (init : Option Msg) :
    Option Msg := do
  let m0 ← init
  let m1 ← append_ok (L.stun_message_append32 m0 StunAttr.MAGIC_COOKIE L.TURN_MAGIC_COOKIE)
  let m2 ← append_username L priv m1
  append_ok (L.stun_message_append_addr m2 StunAttr.DESTINATION_ADDRESS peer)

/-- The MSN branch of `nice_udp_turn_socket_set_peer`. -/
def set_peer_msn {Agent Msg : Type} (L : StunLib Agent Msg)
    (priv : turn_priv Agent) (peer : NiceAddress) : Result Agent :=
  let ini := L.stun_agent_init_request priv.agent StunMethod.STUN_OLD_SET_ACTIVE_DST
  match set_active_dst_message L priv peer ini.2 with
  | none => ⟨false, { priv with agent := ini.1 }, []⟩
  | some m =>
    let fin := L.stun_agent_finish_message ini.1 m priv.password
    if 0 < fin.2.length then
      ⟨true, { priv with agent := fin.1, current_binding := some ⟨peer, 0⟩ },
        [⟨priv.server_addr, fin.2⟩]⟩
    else ⟨true, { priv with agent := fin.1 }, []⟩

/-- The function `nice_udp_turn_socket_set_peer`.  `fuel` bounds the channel
scan of the DRAFT9 branch; the result is `none` when the scan has not finished
within `fuel` iterations. -/
def nice_udp_turn_socket_set_peer {Agent Msg : Type} (L : StunLib Agent Msg)
    (fuel : Nat) (priv : turn_priv Agent) (peer : NiceAddress) :
    Option (Result Agent) :=
  if priv.current_binding.isSome then some ⟨false, priv, []⟩
  else
    match priv.compatibility with
    | NiceUdpTurnSocketCompatibility.DRAFT9 =>
      match scan_channels priv.channels fuel 0x4000 priv.channels with
      | none => none
      | some channel =>
        if 0x4000 ≤ channel ∧ channel < 0xffff then
          let r := priv_send_channel_bind L priv none channel peer
          if r.ret then
            some ⟨true, { r.priv with current_binding := some ⟨peer, channel⟩ }, r.sent⟩
          else some r
        else some ⟨false, priv, []⟩
    | NiceUdpTurnSocketCompatibility.MSN => some (set_peer_msn L priv peer)
    | NiceUdpTurnSocketCompatibility.GOOGLE =>
      some ⟨true, { priv with current_binding := some ⟨peer, 0⟩ }, []⟩

/-- The loop at label `recv:` of `nice_udp_turn_socket_parse_recv`: in DRAFT9
the first binding whose channel equals the first big-endian 16-bit word of the
received buffer, in the other dialects the first binding of the list. -/
def recv_find_binding (compat : NiceUdpTurnSocketCompatibility)
    (recv_buf : List Nat) : List ChannelBinding → Option ChannelBinding
  | [] => none
  | b :: rest =>
    if compat = NiceUdpTurnSocketCompatibility.DRAFT9 then
      if b.channel = ntohs_at recv_buf 0 then some b
      else recv_find_binding compat recv_buf rest
    else some b

/-- The code at label `recv:` of `nice_udp_turn_socket_parse_recv` (the
classification step): pick a binding, set `*from`, copy
`len > recv_len ? recv_len : len` bytes to the user buffer and return that
count as a `gint`.  When a DRAFT9 binding matched, `recv_len` is replaced by
the second 16-bit word of the buffer and `recv_buf` advances by four bytes. -/
def parse_recv_classify {Agent : Type} (priv : turn_priv Agent) (len : Nat)
    (buf : List Nat) (recv_from : NiceAddress) (recv_buf : List Nat)
    (recv_len : Nat) : RecvResult Agent :=
  let binding := recv_find_binding priv.compatibility recv_buf priv.channels
  let draft9_hit := binding.isSome ∧
    priv.compatibility = NiceUdpTurnSocketCompatibility.DRAFT9
  let recv_len1 := if draft9_hit then ntohs_at recv_buf 1 else recv_len
  let recv_buf1 := if draft9_hit then recv_buf.drop 4 else recv_buf
  let from1 := match binding with
    | some b => b.peer
    | none => recv_from
  let n := if len > recv_len1 then recv_len1 else len
  ⟨toGint n, some from1, memmove buf recv_buf1 n, priv, []⟩

/-- The code at label `msn_google_lock:` of
`nice_udp_turn_socket_parse_recv`. -/
def parse_recv_lock {Agent : Type} (priv : turn_priv Agent) (buf : List Nat) :
    RecvResult Agent :=
  match priv.current_binding with
  | some cb => ⟨0, none, buf, { priv with channels := [cb], current_binding := none }, []⟩
  | none => ⟨0, none, buf, priv, []⟩

/-- The function `nice_udp_turn_socket_parse_recv`.  `len` and `buf` are the
user buffer (its capacity and contents), `recv_from`, `recv_buf` and
`recv_len` the datagram read from the base socket. -/
def nice_udp_turn_socket_parse_recv {Agent Msg : Type} (L : StunLib Agent Msg)
    (priv : turn_priv Agent) (len : Nat) (buf : List Nat)
    (recv_from : NiceAddress) (recv_buf : List Nat) (recv_len : Nat) :
    RecvResult Agent :=
  if nice_address_equal priv.server_addr recv_from then
    let v := L.stun_agent_validate priv.agent recv_buf recv_len
    let priv1 := { priv with agent := v.1 }
    let goto_recv := parse_recv_classify priv1 len buf recv_from recv_buf recv_len
    match v.2 with
    | none => goto_recv
    | some msg =>
      if priv1.compatibility ≠ NiceUdpTurnSocketCompatibility.DRAFT9 ∧
          L.stun_message_find32 msg StunAttr.MAGIC_COOKIE ≠ some L.TURN_MAGIC_COOKIE then
        goto_recv
      else if L.stun_message_get_class msg = StunClass.STUN_RESPONSE ∧
          L.stun_message_get_method msg = StunMethod.STUN_SEND then
        if priv1.compatibility = NiceUdpTurnSocketCompatibility.GOOGLE ∧
            options_bit0 (L.stun_message_find32 msg StunAttr.OPTIONS) = true then
          parse_recv_lock priv1 buf
        else ⟨0, none, buf, priv1, []⟩
      else if L.stun_message_get_class msg = StunClass.STUN_RESPONSE ∧
          L.stun_message_get_method msg = StunMethod.STUN_OLD_SET_ACTIVE_DST then
        if priv1.compatibility = NiceUdpTurnSocketCompatibility.MSN then
          parse_recv_lock priv1 buf
        else ⟨0, none, buf, priv1, []⟩
      else if L.stun_message_get_class msg = StunClass.STUN_ERROR ∧
          L.stun_message_get_method msg = StunMethod.STUN_CHANNELBIND then
        match priv1.current_binding with
        | some cb =>
          let r := priv_send_channel_bind L priv1 (some msg) cb.channel cb.peer
          ⟨0, none, buf, r.priv, r.sent⟩
        | none => ⟨0, none, buf, priv1, []⟩
      else if L.stun_message_get_class msg = StunClass.STUN_RESPONSE ∧
          L.stun_message_get_method msg = StunMethod.STUN_CHANNELBIND then
        match priv1.current_binding with
        | some cb =>
          ⟨0, none, buf,
            { priv1 with channels := priv1.channels ++ [cb], current_binding := none }, []⟩
        | none => ⟨0, none, buf, priv1, []⟩
      else if L.stun_message_get_class msg = StunClass.STUN_INDICATION ∧
          L.stun_message_get_method msg = StunMethod.STUN_IND_DATA then
        let sa :=
          if priv1.compatibility = NiceUdpTurnSocketCompatibility.DRAFT9 then
            L.stun_message_find_xor_addr msg StunAttr.REMOTE_ADDRESS
          else L.stun_message_find_addr msg StunAttr.REMOTE_ADDRESS
        match sa with
        | none => goto_recv
        | some a =>
          match L.stun_message_find msg StunAttr.DATA with
          | none => goto_recv
          | some data =>
            let data_len := data.length % 65536
            let n := if len > data_len then data_len else len
            ⟨toGint n, some a, memmove buf data n, priv1, []⟩
      else goto_recv
  else parse_recv_classify priv len buf recv_from recv_buf recv_len

/-- The function `socket_recv` of `udp-turn.c`.  `base_ret`, `recv_from` and
`recv_buf` are what the call of `nice_socket_recv` on the base socket left in
`recv_len`, `recv_from` and the scratch buffer `recv_buf`; the return value is
converted to `guint` without being tested. -/
def socket_recv {Agent Msg : Type} (L : StunLib Agent Msg)
    (priv : turn_priv Agent) (len : Nat) (buf : List Nat) (base_ret : Int)
    (recv_from : NiceAddress) (recv_buf : List Nat) : RecvResult Agent :=
  nice_udp_turn_socket_parse_recv L priv len buf recv_from recv_buf (toGuint base_ret)

/-- The STUN message `socket_send` builds for a destination without a
binding, up to and including the DATA attribute: a SEND indication with the
peer address in DRAFT9, otherwise a SEND request with cookie, username and
destination address, plus `OPTIONS = 1` in GOOGLE when the pending binding is
for the destination (the return code of that append is not tested).  `none`
as soon as a call makes the function jump to label `send:`. -/
def send_message {Agent Msg : Type} (L : StunLib Agent Msg)
    (priv : turn_priv Agent) (to_ : NiceAddress) (buf : List Nat)
    (init : Option Msg) : Option Msg := do
  let m0 ← init
  let m ←
    if priv.compatibility = NiceUdpTurnSocketCompatibility.DRAFT9 then
      append_ok (L.stun_message_append_xor_addr m0 StunAttr.PEER_ADDRESS to_)
    else do
      let m1 ← append_ok (L.stun_message_append32 m0 StunAttr.MAGIC_COOKIE L.TURN_MAGIC_COOKIE)
      let m2 ← append_username L priv m1
      let m3 ← append_ok (L.stun_message_append_addr m2 StunAttr.DESTINATION_ADDRESS to_)
      if priv.compatibility = NiceUdpTurnSocketCompatibility.GOOGLE ∧
          current_binding_is priv.current_binding to_ = true then
        some (L.stun_message_append32 m3 StunAttr.OPTIONS 1).2
      else some m3
  append_ok (L.stun_message_append_bytes m StunAttr.DATA buf)

/-- The function `socket_send` of `udp-turn.c`; the payload is `buf` and `len`
is its length.  Every path returns true; `[⟨to_, buf⟩]` is the call at label
`send:`.  The sum `len + sizeof (uint32_t)` is computed in `size_t`, wider
than the `guint` `len`, so it does not wrap. -/
def socket_send {Agent Msg : Type} (L : StunLib Agent Msg)
    (priv : turn_priv Agent) (to_ : NiceAddress) (buf : List Nat) :
    Result Agent :=
  let len := buf.length
  match priv.channels.find? (fun b => nice_address_equal b.peer to_) with
  | some binding =>
    if priv.compatibility = NiceUdpTurnSocketCompatibility.DRAFT9 ∧
        len + 4 ≤ L.STUN_MAX_MESSAGE_SIZE then
      let buffer := channel_data_frame binding.channel buf
      let msg_len := len + 4
      if 0 < msg_len then ⟨true, priv, [⟨priv.server_addr, buffer.take msg_len⟩]⟩
      else ⟨true, priv, [⟨to_, buf⟩]⟩
    else ⟨true, priv, [⟨to_, buf⟩]⟩
  | none =>
    let ini :=
      if priv.compatibility = NiceUdpTurnSocketCompatibility.DRAFT9 then
        L.stun_agent_init_indication priv.agent StunMethod.STUN_IND_SEND
      else L.stun_agent_init_request priv.agent StunMethod.STUN_SEND
    match send_message L priv to_ buf ini.2 with
    | none => ⟨true, { priv with agent := ini.1 }, [⟨to_, buf⟩]⟩
    | some m =>
      let fin := L.stun_agent_finish_message ini.1 m priv.password
      if 0 < fin.2.length then
        ⟨true, { priv with agent := fin.1 }, [⟨priv.server_addr, fin.2⟩]⟩
      else ⟨true, { priv with agent := fin.1 }, [⟨to_, buf⟩]⟩

/-- What a caller of `set_peer` can observe besides the bindings: the return
value, the pending binding afterwards and the datagrams sent (`none` when the
channel scan ran out of fuel). -/
def set_peer_outcome {Agent : Type} (r : Option (Result Agent)) :
    Option (Bool × Option ChannelBinding × List Datagram) :=
  r.map (fun x => (x.ret, x.priv.current_binding, x.sent))

/-- The function `nice_udp_turn_create_socket_full`: the private state of a
new TURN socket.  `agent0` is the agent left by `stun_agent_init`, `username`
and `password` the credential bytes stored (for MSN the bytes decoded by
`g_base64_decode`, otherwise the bytes of the C strings); GOOGLE stores no
password.  The new socket has no bindings and no pending binding. -/
def nice_udp_turn_create_socket_full {Agent : Type} (agent0 : Agent)
    (server_addr : NiceAddress) (username password : List Nat)
    (compatibility : NiceUdpTurnSocketCompatibility) : turn_priv Agent :=
  ⟨agent0, [], none, server_addr, some username,
    if compatibility = NiceUdpTurnSocketCompatibility.GOOGLE then none else some password,
    compatibility⟩

/-- A call made on the base socket through one of its three entry points. -/
inductive BaseCall where
  | send (d : Datagram)
  | recv
  | close
deriving DecidableEq

/-- Effects of `socket_close`: the bindings released by `g_free` (the cells
of `priv->channels`, in list order), the credential buffers released, and the
calls made on the base socket. -/
structure CloseResult where
  freed_bindings : List ChannelBinding
  freed_username : Option (List Nat)
  freed_password : Option (List Nat)
  base_calls : List BaseCall
deriving DecidableEq

/-- The function `socket_close` of `udp-turn.c`: it frees every binding of
`priv->channels`, the list, the two credential buffers and `priv`.  Its body
contains no call on `priv->base_socket`. -/
def socket_close {Agent : Type} (priv : turn_priv Agent) : CloseResult :=
  ⟨priv.channels, priv.username, priv.password, []⟩

/-- One call on the TURN socket together with what its environment supplies:
the fuel of the channel scan for `set_peer`, and for `recv` the user buffer
and the outcome of `nice_socket_recv` on the base socket. -/
inductive Op where
  | set_peer (fuel : Nat) (peer : NiceAddress)
  | send (to_ : NiceAddress) (buf : List Nat)
  | recv (len : Nat) (buf : List Nat) (base_ret : Int) (recv_from : NiceAddress)
      (recv_buf : List Nat)

/-- The state after one call.  A `set_peer` whose channel scan does not finish
within its fuel yields no new state; the state is then kept. -/
def step {Agent Msg : Type} (L : StunLib Agent Msg) (priv : turn_priv Agent) :
    Op → turn_priv Agent
  | Op.set_peer fuel peer =>
    match nice_udp_turn_socket_set_peer L fuel priv peer with
    | some r => r.priv
    | none => priv
  | Op.send to_ buf => (socket_send L priv to_ buf).priv
  | Op.recv len buf base_ret recv_from recv_buf =>
    (socket_recv L priv len buf base_ret recv_from recv_buf).priv

/-- The state after a sequence of calls, first call first. -/
def run {Agent Msg : Type} (L : StunLib Agent Msg) (priv : turn_priv Agent)
    (ops : List Op) : turn_priv Agent :=
  ops.foldl (step L) priv

/-- An assumption on the STUN library, whose code is not among the sources:
every call made while a message is built succeeds, and a finished message has
a non-zero length. -/
structure BuildsAlways {Agent Msg : Type} (L : StunLib Agent Msg) : Prop where
  init_request : ∀ a t, ((L.stun_agent_init_request a t).2).isSome = true
  init_indication : ∀ a t, ((L.stun_agent_init_indication a t).2).isSome = true
  append32 : ∀ m t v, (L.stun_message_append32 m t v).1 = 0
  append_bytes : ∀ m t v, (L.stun_message_append_bytes m t v).1 = 0
  append_addr : ∀ m t v, (L.stun_message_append_addr m t v).1 = 0
  append_xor_addr : ∀ m t v, (L.stun_message_append_xor_addr m t v).1 = 0
  finish_message : ∀ a m p, 0 < (L.stun_agent_finish_message a m p).2.length

/-- An assumption on the STUN library, whose code is not among the sources:
`stun_message_find32` for the OPTIONS attribute reports what the calls that
built a message put there.  A new request has no OPTIONS attribute; appending
OPTIONS to a message without one makes it found with the appended value;
appending anything else leaves the lookup unchanged. -/
structure OptionsLaws {Agent Msg : Type} (L : StunLib Agent Msg) : Prop where
  init_request : ∀ a t m, (L.stun_agent_init_request a t).2 = some m →
    L.stun_message_find32 m StunAttr.OPTIONS = none
  append32_options : ∀ m v, L.stun_message_find32 m StunAttr.OPTIONS = none →
    L.stun_message_find32 (L.stun_message_append32 m StunAttr.OPTIONS v).2 StunAttr.OPTIONS =
      some v
  append32_other : ∀ m t v, t ≠ StunAttr.OPTIONS →
    L.stun_message_find32 (L.stun_message_append32 m t v).2 StunAttr.OPTIONS =
      L.stun_message_find32 m StunAttr.OPTIONS
  append_bytes : ∀ m t v,
    L.stun_message_find32 (L.stun_message_append_bytes m t v).2 StunAttr.OPTIONS =
      L.stun_message_find32 m StunAttr.OPTIONS
  append_addr : ∀ m t v,
    L.stun_message_find32 (L.stun_message_append_addr m t v).2 StunAttr.OPTIONS =
      L.stun_message_find32 m StunAttr.OPTIONS

/-- The request described by the specification of the authentication retry,
as the sequence of library calls that builds it from the new request `m0`: a
CHANNELBIND request with `CHANNEL_NUMBER = channel << 16`, the peer address,
the username when one is configured, and the REALM and NONCE attributes found
in the error response `resp`. -/
def spec_retry_request {Agent Msg : Type} (L : StunLib Agent Msg)
    (priv : turn_priv Agent) (resp : Msg) (channel : Nat) (peer : NiceAddress)
    (m0 : Msg) : Msg :=
  let m1 := (L.stun_message_append32 m0 StunAttr.CHANNEL_NUMBER ((channel * 65536) % 2 ^ 32)).2
  let m2 := (L.stun_message_append_xor_addr m1 StunAttr.PEER_ADDRESS peer).2
  let m3 := match has_username priv with
    | some u => (L.stun_message_append_bytes m2 StunAttr.USERNAME u).2
    | none => m2
  let m4 := match L.stun_message_find resp StunAttr.REALM with
    | some realm => (L.stun_message_append_bytes m3 StunAttr.REALM realm).2
    | none => m3
  match L.stun_message_find resp StunAttr.NONCE with
  | some nonce => (L.stun_message_append_bytes m4 StunAttr.NONCE nonce).2
  | none => m4

/-- The shape of the channel numbers of a DRAFT9 socket: the bindings carry
the channels `0x4000, 0x4001, ...` in list order, there are at most `0xBFFF`
of them, and a pending binding carries the next channel, which is below
`0xFFFF`. -/
def Draft9Channels {Agent : Type} (priv : turn_priv Agent) : Prop :=
  priv.compatibility = NiceUdpTurnSocketCompatibility.DRAFT9 ∧
  priv.channels.map ChannelBinding.channel = List.range' 0x4000 priv.channels.length ∧
  priv.channels.length ≤ 0xBFFF ∧
  ∀ b, priv.current_binding = some b →
    b.channel = 0x4000 + priv.channels.length ∧ 0x4000 + priv.channels.length < 0xffff

/-- What a call may do to the dialect, the bindings and the pending binding,
from the state `priv` to the state `next`: the dialect is kept, and either
the bindings and the pending binding are kept, or the pending binding is
appended to the bindings and cleared, or (outside DRAFT9) the bindings are
replaced by the pending binding, which is cleared. -/
def KeepsOrCommits {Agent : Type} (priv next : turn_priv Agent) : Prop :=
  next.compatibility = priv.compatibility ∧
  ((next.channels = priv.channels ∧ next.current_binding = priv.current_binding) ∨
    (∃ cb, priv.current_binding = some cb ∧
      next.channels = priv.channels ++ [cb] ∧ next.current_binding = none) ∨
    (∃ cb, priv.compatibility ≠ NiceUdpTurnSocketCompatibility.DRAFT9 ∧
      priv.current_binding = some cb ∧
      next.channels = [cb] ∧ next.current_binding = none))

/-! ## A test double of the STUN library

The theorems below hold for every `StunLib`.  To evaluate the code on concrete
inputs a small deterministic library is used: a message is a record of its
class, method and attributes, and the wire form of a message is the byte `0`
followed by a class code, a method code, a cookie flag and an options byte.
Buffers that do not have this shape fail validation. -/

/-- A message of the test library. -/
structure FakeMsg where
  cls : StunClass
  method : StunMethod
  words : List (StunAttr × Nat)
  blobs : List (StunAttr × List Nat)
  addrs : List (StunAttr × NiceAddress)
deriving DecidableEq

/-- Class of a wire code in the test library. -/
def fake_class_of (c : Nat) : StunClass :=
  if c = 0 then StunClass.STUN_REQUEST
  else if c = 1 then StunClass.STUN_INDICATION
  else if c = 2 then StunClass.STUN_RESPONSE
  else StunClass.STUN_ERROR

/-- Wire code of a class in the test library. -/
def fake_class_code : StunClass → Nat
  | StunClass.STUN_REQUEST => 0
  | StunClass.STUN_INDICATION => 1
  | StunClass.STUN_RESPONSE => 2
  | StunClass.STUN_ERROR => 3

/-- Method of a wire code in the test library. -/
def fake_method_of (m : Nat) : StunMethod :=
  if m = 4 then StunMethod.STUN_SEND
  else if m = 6 then StunMethod.STUN_OLD_SET_ACTIVE_DST
  else if m = 9 then StunMethod.STUN_CHANNELBIND
  else if m = 7 then StunMethod.STUN_IND_DATA
  else StunMethod.OTHER m

/-- Wire code of a method in the test library. -/
def fake_method_code : StunMethod → Nat
  | StunMethod.STUN_SEND => 4
  | StunMethod.STUN_OLD_SET_ACTIVE_DST => 6
  | StunMethod.STUN_CHANNELBIND => 9
  | StunMethod.STUN_IND_DATA => 7
  | StunMethod.STUN_IND_SEND => 6
  | StunMethod.OTHER m => m

/-- Validation in the test library: exactly the five-byte buffers
`0, class, method, cookie flag, options` are messages. -/
def fake_validate (bytes : List Nat) : Option FakeMsg :=
  match bytes with
  | [0, c, m, k, o] =>
    some ⟨fake_class_of c, fake_method_of m,
      [(StunAttr.MAGIC_COOKIE, if k = 1 then 0x72c64bc6 else 0), (StunAttr.OPTIONS, o)],
      [], []⟩
  | _ => none

/-- Wire form of a built message in the test library. -/
def fake_encode (m : FakeMsg) : List Nat :=
  [0, fake_class_code m.cls, fake_method_code m.method] ++
    m.words.map (fun w => w.2 % 256) ++ (m.blobs.map (fun b => b.2)).flatten

/-- The test library.  The agent state counts the messages finished so far;
every call succeeds. -/
def fakeLib : StunLib Nat FakeMsg where
  STUN_MAX_MESSAGE_SIZE := 65552
  TURN_MAGIC_COOKIE := 0x72c64bc6
  stun_agent_init_request := fun a m => (a, some ⟨StunClass.STUN_REQUEST, m, [], [], []⟩)
  stun_agent_init_indication := fun a m => (a, some ⟨StunClass.STUN_INDICATION, m, [], [], []⟩)
  stun_message_append32 := fun m t v => (0, { m with words := m.words ++ [(t, v)] })
  stun_message_append_bytes := fun m t v => (0, { m with blobs := m.blobs ++ [(t, v)] })
  stun_message_append_addr := fun m t v => (0, { m with addrs := m.addrs ++ [(t, v)] })
  stun_message_append_xor_addr := fun m t v => (0, { m with addrs := m.addrs ++ [(t, v)] })
  stun_agent_finish_message := fun a m _ => (a + 1, fake_encode m)
  stun_agent_validate := fun a bytes n => (a, fake_validate (bytes.take n))
  stun_message_get_class := fun m => m.cls
  stun_message_get_method := fun m => m.method
  stun_message_find32 := fun m t => (m.words.find? (fun w => decide (w.1 = t))).map (fun w => w.2)
  stun_message_find := fun m t => (m.blobs.find? (fun w => decide (w.1 = t))).map (fun w => w.2)
  stun_message_find_addr := fun m t => (m.addrs.find? (fun w => decide (w.1 = t))).map (fun w => w.2)
  stun_message_find_xor_addr := fun m t => (m.addrs.find? (fun w => decide (w.1 = t))).map (fun w => w.2)

/-- The test library with a message buffer of eight bytes
(`STUN_MAX_MESSAGE_SIZE = 8`), to exercise the oversize path of `socket_send`
on short payloads. -/
def fakeLibSmall : StunLib Nat FakeMsg :=
  { fakeLib with STUN_MAX_MESSAGE_SIZE := 8 }

/-- The TURN server address used in the examples. -/
def serverS : NiceAddress := ⟨4, [10, 0, 0, 1], 3478⟩

/-- A peer address used in the examples. -/
def peerP : NiceAddress := ⟨4, [192, 168, 0, 1], 5000⟩

/-- A second peer address used in the examples. -/
def peerQ : NiceAddress := ⟨4, [192, 168, 0, 2], 5002⟩

/-- A third peer address used in the examples. -/
def peerR : NiceAddress := ⟨4, [192, 168, 0, 3], 5004⟩

/-- The state built by `nice_udp_turn_create_socket_full` for the test
library, server `serverS`, username `"u"` and password `"p"`: no bindings, no
pending binding, and no password in GOOGLE. -/
def fresh (compat : NiceUdpTurnSocketCompatibility) : turn_priv Nat :=
  ⟨0, [], none, serverS, some [117],
    if compat = NiceUdpTurnSocketCompatibility.GOOGLE then none else some [112], compat⟩

/-- The wire form, in the test library, of a CHANNELBIND success response. -/
def channelbind_response : List Nat := [0, 2, 9, 0, 0]

/-- State after `set_peer` (the input state when the scan runs out of fuel). -/
def after_set_peer (priv : turn_priv Nat) (peer : NiceAddress) : turn_priv Nat :=
  match nice_udp_turn_socket_set_peer fakeLib 64 priv peer with
  | some r => r.priv
  | none => priv

/-- State after `recv` processes `bytes` received from the server. -/
def after_server_datagram (priv : turn_priv Nat) (bytes : List Nat) : turn_priv Nat :=
  (socket_recv fakeLib priv 0 [] (bytes.length : Int) serverS bytes).priv

/-- A DRAFT9 state with a pending binding for `peerP`. -/
def draft9_pending : turn_priv Nat :=
  after_set_peer (fresh NiceUdpTurnSocketCompatibility.DRAFT9) peerP

/-- A DRAFT9 state in which `peerP` is bound: `set_peer (peerP)` followed by a
CHANNELBIND success response. -/
def draft9_bound : turn_priv Nat :=
  after_server_datagram draft9_pending channelbind_response

/-- The state reached from `draft9_bound` by a second `set_peer (peerP)` and a
second CHANNELBIND success response. -/
def draft9_bound_twice : turn_priv Nat :=
  after_server_datagram (after_set_peer draft9_bound peerP) channelbind_response

/-- A DRAFT9 state whose bindings are not in channel order. -/
def draft9_unordered : turn_priv Nat :=
  { fresh NiceUdpTurnSocketCompatibility.DRAFT9 with
    channels := [⟨peerP, 0x4001⟩, ⟨peerQ, 0x4000⟩] }

/-- The wire form, in the test library, of an OLD_SET_ACTIVE_DESTINATION
success response carrying the TURN magic cookie. -/
def set_active_dst_response : List Nat := [0, 2, 6, 1, 0]

/-- The wire form, in the test library, of a SEND success response carrying
the TURN magic cookie and `OPTIONS = 1`. -/
def send_response_locked : List Nat := [0, 2, 4, 1, 1]

/-- An MSN state with a pending binding for `peerP`. -/
def msn_pending : turn_priv Nat :=
  after_set_peer (fresh NiceUdpTurnSocketCompatibility.MSN) peerP

/-- A GOOGLE state in which `peerQ` is bound (by `set_peer` and the lock
trigger) and a binding for `peerP` is pending. -/
def google_rebinding : turn_priv Nat :=
  after_set_peer
    (after_server_datagram
      (after_set_peer (fresh NiceUdpTurnSocketCompatibility.GOOGLE) peerQ)
      send_response_locked)
    peerP

/-- The test library with a failing `stun_agent_init_request`. -/
def fakeLibNoInit : StunLib Nat FakeMsg :=
  { fakeLib with stun_agent_init_request := fun a _ => (a, none) }

/-- Validation in a variant of the test library that also accepts seven-byte
buffers `0, class, method, cookie flag, options, r, n`, read as a message
with `REALM = [r]` and `NONCE = [n]`. -/
def fake_validate_auth (bytes : List Nat) : Option FakeMsg :=
  match bytes with
  | [0, c, m, k, o, r, n] =>
    some ⟨fake_class_of c, fake_method_of m,
      [(StunAttr.MAGIC_COOKIE, if k = 1 then 0x72c64bc6 else 0), (StunAttr.OPTIONS, o)],
      [(StunAttr.REALM, [r]), (StunAttr.NONCE, [n])], []⟩
  | _ => fake_validate bytes

/-- The test library with the validation that reads REALM and NONCE. -/
def fakeLibAuth : StunLib Nat FakeMsg :=
  { fakeLib with stun_agent_validate := fun a bytes n => (a, fake_validate_auth (bytes.take n)) }

/-- The wire form, in `fakeLibAuth`, of a CHANNELBIND error response with
`REALM = "r"` and `NONCE = "n"`. -/
def channelbind_error : List Nat := [0, 3, 9, 0, 0, 114, 110]

/-- A GOOGLE state with no bindings and a pending binding for `peerP`. -/
def google_pending : turn_priv Nat :=
  after_set_peer (fresh NiceUdpTurnSocketCompatibility.GOOGLE) peerP

/-- The request builder changes nothing of the state but the STUN agent. -/
theorem priv_send_channel_bind_frame {Agent Msg : Type} (L : StunLib Agent Msg)
    (priv : turn_priv Agent) (resp : Option Msg) (channel : Nat) (peer : NiceAddress) :
    (priv_send_channel_bind L priv resp channel peer).priv =
      { priv with agent := (priv_send_channel_bind L priv resp channel peer).priv.agent } := by
  unfold priv_send_channel_bind
  simp only []
  split
  · rfl
  · split <;> rfl

/-- The request builder does not read the bindings: replacing them changes
neither the return value nor the datagrams, and the agent evolves alike. -/
theorem priv_send_channel_bind_channels {Agent Msg : Type} (L : StunLib Agent Msg)
    (priv : turn_priv Agent) (cs : List ChannelBinding) (resp : Option Msg)
    (channel : Nat) (peer : NiceAddress) :
    priv_send_channel_bind L { priv with channels := cs } resp channel peer =
      ⟨(priv_send_channel_bind L priv resp channel peer).ret,
        { (priv_send_channel_bind L priv resp channel peer).priv with channels := cs },
        (priv_send_channel_bind L priv resp channel peer).sent⟩ := by
  have hm : ∀ i, channel_bind_message L { priv with channels := cs } resp channel peer i =
      channel_bind_message L priv resp channel peer i := fun _ => rfl
  unfold priv_send_channel_bind
  simp only [hm]
  split
  · rfl
  · split <;> rfl

/-- The MSN request builder changes neither the bindings nor anything but the
agent and the pending binding, and a pending binding it sets is `(peer, 0)`. -/
theorem set_peer_msn_frame {Agent Msg : Type} (L : StunLib Agent Msg)
    (priv : turn_priv Agent) (peer : NiceAddress) :
    (set_peer_msn L priv peer).priv.channels = priv.channels ∧
    ((set_peer_msn L priv peer).priv.current_binding = priv.current_binding ∨
      (set_peer_msn L priv peer).priv.current_binding = some ⟨peer, 0⟩) := by
  unfold set_peer_msn
  simp only []
  split
  · exact ⟨rfl, Or.inl rfl⟩
  · split
    · exact ⟨rfl, Or.inr rfl⟩
    · exact ⟨rfl, Or.inl rfl⟩

/-- The MSN request builder does not read the bindings. -/
theorem set_peer_msn_channels {Agent Msg : Type} (L : StunLib Agent Msg)
    (priv : turn_priv Agent) (cs : List ChannelBinding) (peer : NiceAddress) :
    set_peer_msn L { priv with channels := cs } peer =
      ⟨(set_peer_msn L priv peer).ret,
        { (set_peer_msn L priv peer).priv with channels := cs },
        (set_peer_msn L priv peer).sent⟩ := by
  have hm : ∀ i, set_active_dst_message L { priv with channels := cs } peer i =
      set_active_dst_message L priv peer i := fun _ => rfl
  unfold set_peer_msn
  simp only [hm]
  split
  · rfl
  · split <;> rfl

/-- The channel scan reads only the channel numbers of the bindings. -/
theorem scan_channels_congr (cs cs' : List ChannelBinding)
    (h : cs.map ChannelBinding.channel = cs'.map ChannelBinding.channel) :
    ∀ (fuel channel : Nat) (i i' : List ChannelBinding),
      i.map ChannelBinding.channel = i'.map ChannelBinding.channel →
      scan_channels cs fuel channel i = scan_channels cs' fuel channel i' := by
  have htail : cs.tail.map ChannelBinding.channel = cs'.tail.map ChannelBinding.channel := by
    rw [List.map_tail, List.map_tail, h]
  intro fuel
  induction fuel with
  | zero =>
    intro channel i i' hi
    cases i with
    | nil =>
      cases i' with
      | nil => simp [scan_channels]
      | cons b' r' => simp at hi
    | cons b r =>
      cases i' with
      | nil => simp at hi
      | cons b' r' => simp [scan_channels]
  | succ n ih =>
    intro channel i i' hi
    cases i with
    | nil =>
      cases i' with
      | nil => simp [scan_channels]
      | cons b' r' => simp at hi
    | cons b r =>
      cases i' with
      | nil => simp at hi
      | cons b' r' =>
        simp only [List.map_cons, List.cons.injEq] at hi
        simp only [scan_channels, hi.1]
        split
        · exact ih _ _ _ htail
        · exact ih _ _ _ hi.2

/-- C1: in every dialect and every state with a pending binding,
`set_peer (peer)` returns false, sends nothing on the base transport and
leaves the whole state (bindings and pending binding included) unchanged. -/
theorem set_peer_pending_rejected {Agent Msg : Type} (L : StunLib Agent Msg)
    (fuel : Nat) (priv : turn_priv Agent) (peer : NiceAddress)
    (h : priv.current_binding ≠ none) :
    nice_udp_turn_socket_set_peer L fuel priv peer = some ⟨false, priv, []⟩ := by
  unfold nice_udp_turn_socket_set_peer
  cases hcb : priv.current_binding with
  | none => exact absurd hcb h
  | some cb => simp

/-- Witness for C1: the DRAFT9 state after a first `set_peer` has a pending
binding, and a second `set_peer` is rejected there. -/
theorem set_peer_pending_rejected_witness :
    draft9_pending.current_binding ≠ none ∧
    nice_udp_turn_socket_set_peer fakeLib 0 draft9_pending peerQ =
      some ⟨false, draft9_pending, []⟩ :=
  ⟨by decide, set_peer_pending_rejected fakeLib 0 draft9_pending peerQ (by decide)⟩

/-- C3 (counterexample): in DRAFT9, after `set_peer (peerP)` and a CHANNELBIND
success response the peer is bound and nothing is pending; a second
`set_peer (peerP)` nevertheless returns true with a pending binding for the
same peer, and after a second success response `peerP` is in the bindings
twice. -/
theorem set_peer_bound_peer_accepted :
    draft9_bound.channels = [⟨peerP, 0x4000⟩] ∧
    draft9_bound.current_binding = none ∧
    set_peer_outcome (nice_udp_turn_socket_set_peer fakeLib 64 draft9_bound peerP) =
      some (true, some ⟨peerP, 0x4001⟩, [⟨serverS, [0, 0, 9, 0, 117]⟩]) ∧
    draft9_bound_twice.channels = [⟨peerP, 0x4000⟩, ⟨peerP, 0x4001⟩] := by
  decide

/-- C3 (amended): `set_peer` never consults the peers of the bindings.  In every
state with no pending binding in which `peer` is already bound,
`set_peer (peer)` leaves the bindings unchanged and any pending binding it
leaves is one for `peer`; in DRAFT9 a true return sets such a pending binding,
in GOOGLE it always returns true with pending `(peer, 0)`; and its return
value, pending binding and datagrams are the same for every bindings list
with the same sequence of channel numbers, whoever the peers are. -/
theorem set_peer_ignores_bound_peers {Agent Msg : Type} (L : StunLib Agent Msg)
    (fuel : Nat) (priv : turn_priv Agent) (peer : NiceAddress)
    (hp : priv.current_binding = none)
    (_hb : peer ∈ priv.channels.map ChannelBinding.peer) :
    (∀ r, nice_udp_turn_socket_set_peer L fuel priv peer = some r →
      r.priv.channels = priv.channels ∧
      (r.priv.current_binding = none ∨ ∃ c, r.priv.current_binding = some ⟨peer, c⟩) ∧
      (priv.compatibility = NiceUdpTurnSocketCompatibility.DRAFT9 → r.ret = true →
        ∃ c, r.priv.current_binding = some ⟨peer, c⟩)) ∧
    (priv.compatibility = NiceUdpTurnSocketCompatibility.GOOGLE →
      nice_udp_turn_socket_set_peer L fuel priv peer =
        some ⟨true, { priv with current_binding := some ⟨peer, 0⟩ }, []⟩) ∧
    (∀ cs : List ChannelBinding,
      cs.map ChannelBinding.channel = priv.channels.map ChannelBinding.channel →
      set_peer_outcome (nice_udp_turn_socket_set_peer L fuel { priv with channels := cs } peer) =
        set_peer_outcome (nice_udp_turn_socket_set_peer L fuel priv peer)) := by
  refine ⟨?_, ?_, ?_⟩
  · intro r hr
    unfold nice_udp_turn_socket_set_peer at hr
    simp only [hp, Option.isSome_none, Bool.false_eq_true, if_false] at hr
    cases hc : priv.compatibility with
    | DRAFT9 =>
      simp only [hc] at hr
      cases hs : scan_channels priv.channels fuel 0x4000 priv.channels with
      | none => simp [hs] at hr
      | some channel =>
        simp only [hs] at hr
        have hf := priv_send_channel_bind_frame L priv none channel peer
        split at hr
        · split at hr
          · cases hr
            rw [hf]
            exact ⟨rfl, Or.inr ⟨channel, rfl⟩, fun _ _ => ⟨channel, rfl⟩⟩
          · rename_i hret
            cases hr
            rw [hf]
            exact ⟨rfl, Or.inl hp, fun _ h => absurd h hret⟩
        · cases hr
          exact ⟨rfl, Or.inl hp, fun _ h => by simp at h⟩
    | MSN =>
      simp only [hc] at hr
      cases hr
      have hm := set_peer_msn_frame L priv peer
      refine ⟨hm.1, ?_, fun h => by simp at h⟩
      rcases hm.2 with h | h
      · exact Or.inl (h.trans hp)
      · exact Or.inr ⟨0, h⟩
    | GOOGLE =>
      simp only [hc] at hr
      cases hr
      exact ⟨rfl, Or.inr ⟨0, rfl⟩, fun h => by simp at h⟩
  · intro hc
    unfold nice_udp_turn_socket_set_peer
    simp [hp, hc]
  · intro cs hcs
    obtain ⟨agent, channels, cb, srv, u, pw, compat⟩ := priv
    simp only at hp hcs
    subst hp
    unfold nice_udp_turn_socket_set_peer
    simp only [Option.isSome_none, Bool.false_eq_true, if_false]
    cases compat with
    | DRAFT9 =>
      simp only []
      rw [scan_channels_congr cs channels hcs fuel 0x4000 cs channels hcs]
      cases hs : scan_channels channels fuel 0x4000 channels with
      | none => rfl
      | some channel =>
        have h := priv_send_channel_bind_channels L
          ⟨agent, channels, none, srv, u, pw, NiceUdpTurnSocketCompatibility.DRAFT9⟩
          cs none channel peer
        simp only [] at h
        simp only [h]
        split
        · split <;> rfl
        · rfl
    | MSN =>
      have h := set_peer_msn_channels L
        ⟨agent, channels, none, srv, u, pw, NiceUdpTurnSocketCompatibility.MSN⟩ cs peer
      simp only [] at h
      simp only [h]
      rfl
    | GOOGLE => rfl

/-- Witness for C3 (amended): the DRAFT9 state in which `peerP` is bound and
nothing is pending. -/
theorem set_peer_ignores_bound_peers_witness :
    draft9_bound.current_binding = none ∧
    peerP ∈ draft9_bound.channels.map ChannelBinding.peer ∧
    (∀ cs : List ChannelBinding,
      cs.map ChannelBinding.channel = draft9_bound.channels.map ChannelBinding.channel →
      set_peer_outcome
          (nice_udp_turn_socket_set_peer fakeLib 64 { draft9_bound with channels := cs } peerP) =
        set_peer_outcome (nice_udp_turn_socket_set_peer fakeLib 64 draft9_bound peerP)) :=
  ⟨by decide, by decide,
    (set_peer_ignores_bound_peers fakeLib 64 draft9_bound peerP (by decide) (by decide)).2.2⟩

/-- C4: in DRAFT9, when `recv` processes a datagram from the server that
validates as a STUN message of class RESPONSE and method CHANNELBIND, it
returns 0 without writing the user buffer or sending; with a pending binding
`p` the new bindings are the old ones followed by `p` (one entry more, the
earlier entries and their order unchanged) and nothing is pending any more;
with no pending binding the bindings and the (absent) pending binding are
unchanged.  Only the STUN agent, which validated the message, may differ. -/
theorem channelbind_response_commits {Agent Msg : Type} (L : StunLib Agent Msg)
    (priv : turn_priv Agent) (len : Nat) (buf : List Nat) (recv_from : NiceAddress)
    (recv_buf : List Nat) (recv_len : Nat) (msg : Msg)
    (hd : priv.compatibility = NiceUdpTurnSocketCompatibility.DRAFT9)
    (hfrom : recv_from = priv.server_addr)
    (hv : (L.stun_agent_validate priv.agent recv_buf recv_len).2 = some msg)
    (hclass : L.stun_message_get_class msg = StunClass.STUN_RESPONSE)
    (hmeth : L.stun_message_get_method msg = StunMethod.STUN_CHANNELBIND) :
    nice_udp_turn_socket_parse_recv L priv len buf recv_from recv_buf recv_len =
      (match priv.current_binding with
        | some p =>
          ⟨0, none, buf,
            { priv with
              agent := (L.stun_agent_validate priv.agent recv_buf recv_len).1,
              channels := priv.channels ++ [p],
              current_binding := none }, []⟩
        | none =>
          ⟨0, none, buf,
            { priv with agent := (L.stun_agent_validate priv.agent recv_buf recv_len).1 },
            []⟩) ∧
    (∀ p, priv.current_binding = some p →
      (nice_udp_turn_socket_parse_recv L priv len buf recv_from recv_buf recv_len).priv.channels.length
        = priv.channels.length + 1) := by
  have key : nice_udp_turn_socket_parse_recv L priv len buf recv_from recv_buf recv_len =
      (match priv.current_binding with
        | some p =>
          ⟨0, none, buf,
            { priv with
              agent := (L.stun_agent_validate priv.agent recv_buf recv_len).1,
              channels := priv.channels ++ [p],
              current_binding := none }, []⟩
        | none =>
          ⟨0, none, buf,
            { priv with agent := (L.stun_agent_validate priv.agent recv_buf recv_len).1 },
            []⟩) := by
    unfold nice_udp_turn_socket_parse_recv
    simp only [hfrom, nice_address_equal, decide_True, if_true, hv, hd, hclass, hmeth,
      ne_eq, not_true_eq_false, false_and, if_false, reduceCtorEq, and_false, and_self]
  refine ⟨key, ?_⟩
  intro p hp
  rw [key, hp]
  simp

/-- Witness for C4: the DRAFT9 state with a pending binding for `peerP`
receives a CHANNELBIND success response from the server. -/
theorem channelbind_response_commits_witness :
    draft9_pending.compatibility = NiceUdpTurnSocketCompatibility.DRAFT9 ∧
    (fakeLib.stun_agent_validate draft9_pending.agent channelbind_response 5).2 =
      some ⟨StunClass.STUN_RESPONSE, StunMethod.STUN_CHANNELBIND,
        [(StunAttr.MAGIC_COOKIE, 0), (StunAttr.OPTIONS, 0)], [], []⟩ ∧
    (nice_udp_turn_socket_parse_recv fakeLib draft9_pending 0 [] serverS
        channelbind_response 5).priv.channels.length = draft9_pending.channels.length + 1 :=
  ⟨by decide, by decide,
    (channelbind_response_commits fakeLib draft9_pending 0 [] serverS channelbind_response 5
      ⟨StunClass.STUN_RESPONSE, StunMethod.STUN_CHANNELBIND,
        [(StunAttr.MAGIC_COOKIE, 0), (StunAttr.OPTIONS, 0)], [], []⟩
      (by decide) (by decide) (by decide) (by decide) (by decide)).2
      ⟨peerP, 0x4000⟩ (by decide)⟩

/-- C5: the lock action.  In a state with pending binding `p` and any bindings,
when the lock trigger arrives from the server in a validated STUN message
whose MAGIC_COOKIE is the TURN magic (MSN: a RESPONSE to
OLD_SET_ACTIVE_DESTINATION; GOOGLE: a RESPONSE to SEND whose OPTIONS attribute
has bit `0x1` set), `recv` returns 0, the bindings become the one-element
list `[p]` and nothing is pending; the user buffer is not written and nothing
is sent. -/
theorem lock_replaces_bindings {Agent Msg : Type} (L : StunLib Agent Msg)
    (priv : turn_priv Agent) (len : Nat) (buf : List Nat) (recv_from : NiceAddress)
    (recv_buf : List Nat) (recv_len : Nat) (msg : Msg) (p : ChannelBinding)
    (hfrom : recv_from = priv.server_addr)
    (hv : (L.stun_agent_validate priv.agent recv_buf recv_len).2 = some msg)
    (hcookie : L.stun_message_find32 msg StunAttr.MAGIC_COOKIE = some L.TURN_MAGIC_COOKIE)
    (hp : priv.current_binding = some p)
    (htrig :
      (priv.compatibility = NiceUdpTurnSocketCompatibility.MSN ∧
        L.stun_message_get_class msg = StunClass.STUN_RESPONSE ∧
        L.stun_message_get_method msg = StunMethod.STUN_OLD_SET_ACTIVE_DST) ∨
      (priv.compatibility = NiceUdpTurnSocketCompatibility.GOOGLE ∧
        L.stun_message_get_class msg = StunClass.STUN_RESPONSE ∧
        L.stun_message_get_method msg = StunMethod.STUN_SEND ∧
        ∃ o, L.stun_message_find32 msg StunAttr.OPTIONS = some o ∧ o % 2 = 1)) :
    nice_udp_turn_socket_parse_recv L priv len buf recv_from recv_buf recv_len =
      ⟨0, none, buf,
        { priv with
          agent := (L.stun_agent_validate priv.agent recv_buf recv_len).1,
          channels := [p],
          current_binding := none }, []⟩ := by
  unfold nice_udp_turn_socket_parse_recv
  rcases htrig with ⟨hc, hclass, hmeth⟩ | ⟨hc, hclass, hmeth, o, ho, hbit⟩
  · simp only [hfrom, nice_address_equal, decide_True, if_true, hv, hc, hclass, hmeth,
      hcookie, ne_eq, not_true_eq_false, and_false, if_false, reduceCtorEq, and_self,
      parse_recv_lock, hp]
  · simp only [hfrom, nice_address_equal, decide_True, if_true, hv, hc, hclass, hmeth,
      hcookie, ne_eq, not_true_eq_false, and_false, if_false, reduceCtorEq, and_self,
      parse_recv_lock, hp, ho, options_bit0, hbit, decide_True]

/-- Witness for C5: the MSN state with `peerP` pending receives the
OLD_SET_ACTIVE_DESTINATION response, and the GOOGLE state with `peerQ` bound
and `peerP` pending receives a SEND response with `OPTIONS = 1`. -/
theorem lock_replaces_bindings_witness :
    (msn_pending.current_binding = some ⟨peerP, 0⟩ ∧
      nice_udp_turn_socket_parse_recv fakeLib msn_pending 0 [] serverS
          set_active_dst_response 5 =
        ⟨0, none, [],
          { msn_pending with
            agent := (fakeLib.stun_agent_validate msn_pending.agent set_active_dst_response 5).1,
            channels := [⟨peerP, 0⟩],
            current_binding := none }, []⟩) ∧
    (google_rebinding.current_binding = some ⟨peerP, 0⟩ ∧
      google_rebinding.channels = [⟨peerQ, 0⟩] ∧
      nice_udp_turn_socket_parse_recv fakeLib google_rebinding 0 [] serverS
          send_response_locked 5 =
        ⟨0, none, [],
          { google_rebinding with
            agent := (fakeLib.stun_agent_validate google_rebinding.agent send_response_locked 5).1,
            channels := [⟨peerP, 0⟩],
            current_binding := none }, []⟩) :=
  ⟨⟨by decide,
      lock_replaces_bindings fakeLib msn_pending 0 [] serverS set_active_dst_response 5
        ⟨StunClass.STUN_RESPONSE, StunMethod.STUN_OLD_SET_ACTIVE_DST,
          [(StunAttr.MAGIC_COOKIE, 0x72c64bc6), (StunAttr.OPTIONS, 0)], [], []⟩
        ⟨peerP, 0⟩ (by decide) (by decide) (by decide) (by decide)
        (Or.inl ⟨by decide, by decide, by decide⟩)⟩,
    ⟨by decide, by decide,
      lock_replaces_bindings fakeLib google_rebinding 0 [] serverS send_response_locked 5
        ⟨StunClass.STUN_RESPONSE, StunMethod.STUN_SEND,
          [(StunAttr.MAGIC_COOKIE, 0x72c64bc6), (StunAttr.OPTIONS, 1)], [], []⟩
        ⟨peerP, 0⟩ (by decide) (by decide) (by decide) (by decide)
        (Or.inr ⟨by decide, by decide, by decide, 1, by decide, by decide⟩)⟩⟩

/-! ### Outbound framing -/

/-- The two bytes written for `htons (x)` are the big-endian digits of `x`
truncated to 16 bits. -/
theorem htons_bytes_spec (x : Nat) :
    htons_bytes x = [(x % 65536) / 256, x % 256] ∧
    (x % 65536) / 256 < 256 ∧ x % 256 < 256 ∧
    (x % 65536) / 256 * 256 + x % 256 = x % 65536 := by
  refine ⟨rfl, ?_, ?_, ?_⟩ <;> omega

/-- The lookup of `socket_send` returns a binding whose peer is the
destination. -/
theorem send_lookup_peer (cs : List ChannelBinding) (to_ : NiceAddress) (b : ChannelBinding)
    (h : cs.find? (fun x => nice_address_equal x.peer to_) = some b) :
    b.peer = to_ ∧ b ∈ cs := by
  have h1 := List.find?_some h
  have h2 := List.mem_of_find?_eq_some h
  simp only [nice_address_equal, decide_eq_true_eq] at h1
  exact ⟨h1, h2⟩

/-- The framed path of `socket_send`: one ChannelData frame to the server. -/
theorem socket_send_draft9_fits {Agent Msg : Type} (L : StunLib Agent Msg)
    (priv : turn_priv Agent) (P : NiceAddress) (buf : List Nat) (b : ChannelBinding)
    (hd : priv.compatibility = NiceUdpTurnSocketCompatibility.DRAFT9)
    (hfind : priv.channels.find? (fun x => nice_address_equal x.peer P) = some b)
    (hfit : buf.length + 4 ≤ L.STUN_MAX_MESSAGE_SIZE) :
    socket_send L priv P buf =
      ⟨true, priv, [⟨priv.server_addr, channel_data_frame b.channel buf⟩]⟩ := by
  unfold socket_send
  have hlen : (channel_data_frame b.channel buf).length = buf.length + 4 := by
    simp [channel_data_frame, htons_bytes]
  simp only [hfind, hd, hfit, and_self, if_true, Nat.succ_pos, Nat.lt_add_left_iff_pos,
    Nat.ofNat_pos]
  rw [← hlen, List.take_length]

/-- C6: in DRAFT9, when the lookup of `send` finds the binding `b` for the
destination `P` and the payload fits (`len + 4 <= STUN_MAX_MESSAGE_SIZE`),
`send` returns true, leaves the state unchanged and places exactly one
datagram on the base transport, addressed to the server: two bytes holding the
channel of `b` big-endian, two bytes holding `len` big-endian (both as 16-bit
values), then the payload unchanged, `len + 4` bytes in total. -/
theorem draft9_send_framed {Agent Msg : Type} (L : StunLib Agent Msg)
    (priv : turn_priv Agent) (P : NiceAddress) (buf : List Nat) (b : ChannelBinding)
    (hd : priv.compatibility = NiceUdpTurnSocketCompatibility.DRAFT9)
    (hfind : priv.channels.find? (fun x => nice_address_equal x.peer P) = some b)
    (hfit : buf.length + 4 ≤ L.STUN_MAX_MESSAGE_SIZE) :
    socket_send L priv P buf =
      ⟨true, priv,
        [⟨priv.server_addr,
          [(b.channel % 65536) / 256, b.channel % 256,
            (buf.length % 65536) / 256, buf.length % 256] ++ buf⟩]⟩ ∧
    b.peer = P ∧
    ([(b.channel % 65536) / 256, b.channel % 256,
        (buf.length % 65536) / 256, buf.length % 256] ++ buf).length = buf.length + 4 ∧
    (b.channel % 65536) / 256 * 256 + b.channel % 256 = b.channel % 65536 ∧
    (buf.length % 65536) / 256 * 256 + buf.length % 256 = buf.length % 65536 := by
  refine ⟨?_, (send_lookup_peer _ _ _ hfind).1, ?_, ?_, ?_⟩
  · rw [socket_send_draft9_fits L priv P buf b hd hfind hfit]
    rfl
  · simp
  · omega
  · omega

/-- Witness for C6: `send (peerP, "hi")` in the DRAFT9 state where `peerP` is
bound to channel `0x4000` puts `40 00 00 02 'h' 'i'` on the wire to the
server. -/
theorem draft9_send_framed_witness :
    draft9_bound.compatibility = NiceUdpTurnSocketCompatibility.DRAFT9 ∧
    draft9_bound.channels.find? (fun x => nice_address_equal x.peer peerP) =
      some ⟨peerP, 0x4000⟩ ∧
    [104, 105].length + 4 ≤ fakeLib.STUN_MAX_MESSAGE_SIZE ∧
    socket_send fakeLib draft9_bound peerP [104, 105] =
      ⟨true, draft9_bound, [⟨draft9_bound.server_addr, [0x40, 0, 0, 2, 104, 105]⟩]⟩ :=
  ⟨by decide, by decide, by decide,
    (draft9_send_framed fakeLib draft9_bound peerP [104, 105] ⟨peerP, 0x4000⟩
      (by decide) (by decide) (by decide)).1⟩

/-- C7: in DRAFT9, for a bound destination `P` and a payload with
`len + 4 > STUN_MAX_MESSAGE_SIZE`, `send` returns true, leaves the state
unchanged and places exactly one datagram on the base transport, addressed to
`P` itself, whose bytes are the raw payload (no ChannelData header). -/
theorem draft9_send_oversize_passthrough {Agent Msg : Type} (L : StunLib Agent Msg)
    (priv : turn_priv Agent) (P : NiceAddress) (buf : List Nat) (b : ChannelBinding)
    (hd : priv.compatibility = NiceUdpTurnSocketCompatibility.DRAFT9)
    (hfind : priv.channels.find? (fun x => nice_address_equal x.peer P) = some b)
    (hbig : buf.length + 4 > L.STUN_MAX_MESSAGE_SIZE) :
    socket_send L priv P buf = ⟨true, priv, [⟨P, buf⟩]⟩ := by
  unfold socket_send
  have : ¬ (buf.length + 4 ≤ L.STUN_MAX_MESSAGE_SIZE) := by omega
  simp only [hfind, hd, this, and_false, if_false]

/-- Witness for C7: a payload of six bytes sent to the bound peer `peerP`
through a library whose message buffer holds eight bytes. -/
theorem draft9_send_oversize_passthrough_witness :
    draft9_bound.compatibility = NiceUdpTurnSocketCompatibility.DRAFT9 ∧
    draft9_bound.channels.find? (fun x => nice_address_equal x.peer peerP) =
      some ⟨peerP, 0x4000⟩ ∧
    [1, 2, 3, 4, 5, 6].length + 4 > fakeLibSmall.STUN_MAX_MESSAGE_SIZE ∧
    socket_send fakeLibSmall draft9_bound peerP [1, 2, 3, 4, 5, 6] =
      ⟨true, draft9_bound, [⟨peerP, [1, 2, 3, 4, 5, 6]⟩]⟩ :=
  ⟨by decide, by decide, by decide,
    draft9_send_oversize_passthrough fakeLibSmall draft9_bound peerP [1, 2, 3, 4, 5, 6]
      ⟨peerP, 0x4000⟩ (by decide) (by decide) (by decide)⟩

/-! ### Inbound classification -/

/-- A datagram that does not come from the server goes straight to the
classification step. -/
theorem parse_recv_not_from_server {Agent Msg : Type} (L : StunLib Agent Msg)
    (priv : turn_priv Agent) (len : Nat) (buf : List Nat) (recv_from : NiceAddress)
    (recv_buf : List Nat) (recv_len : Nat) (h : recv_from ≠ priv.server_addr) :
    nice_udp_turn_socket_parse_recv L priv len buf recv_from recv_buf recv_len =
      parse_recv_classify priv len buf recv_from recv_buf recv_len := by
  unfold nice_udp_turn_socket_parse_recv
  have : nice_address_equal priv.server_addr recv_from = false := by
    simp only [nice_address_equal, decide_eq_false_iff_not]
    exact fun e => h e.symm
  simp [this]

/-- A datagram from the server that fails STUN validation goes to the
classification step; only the STUN agent may have changed. -/
theorem parse_recv_not_valid {Agent Msg : Type} (L : StunLib Agent Msg)
    (priv : turn_priv Agent) (len : Nat) (buf : List Nat) (recv_from : NiceAddress)
    (recv_buf : List Nat) (recv_len : Nat)
    (hfrom : recv_from = priv.server_addr)
    (hv : (L.stun_agent_validate priv.agent recv_buf recv_len).2 = none) :
    nice_udp_turn_socket_parse_recv L priv len buf recv_from recv_buf recv_len =
      parse_recv_classify
        { priv with agent := (L.stun_agent_validate priv.agent recv_buf recv_len).1 }
        len buf recv_from recv_buf recv_len := by
  unfold nice_udp_turn_socket_parse_recv
  simp only [hfrom, nice_address_equal, decide_True, if_true, hv]

/-- A 16-bit word read from a buffer is below `2^16`. -/
theorem ntohs_at_lt (p : List Nat) (k : Nat) : ntohs_at p k < 65536 := by
  unfold ntohs_at
  omega

/-- A count below `2^31` is returned unchanged as a `gint`. -/
theorem toGint_of_lt (n : Nat) (h : n < 2 ^ 31) : toGint n = (n : Int) := by
  unfold toGint
  have h1 : n % 2 ^ 32 = n := Nat.mod_eq_of_lt (by omega)
  rw [h1, if_pos h]

/-- The DRAFT9 scan of the classification step returns the first binding, in
list order, whose channel is the leading 16-bit word. -/
theorem recv_find_binding_draft9 (recv_buf : List Nat) (pre post : List ChannelBinding)
    (b : ChannelBinding)
    (hpre : ∀ x ∈ pre, x.channel ≠ ntohs_at recv_buf 0)
    (hb : b.channel = ntohs_at recv_buf 0) :
    recv_find_binding NiceUdpTurnSocketCompatibility.DRAFT9 recv_buf (pre ++ b :: post) =
      some b := by
  induction pre with
  | nil => simp [recv_find_binding, hb]
  | cons x xs ih =>
    have hx : x.channel ≠ ntohs_at recv_buf 0 := hpre x (List.mem_cons_self _ _)
    have hxs : ∀ y ∈ xs, y.channel ≠ ntohs_at recv_buf 0 :=
      fun y hy => hpre y (List.mem_cons_of_mem _ hy)
    simp [recv_find_binding, hx, ih hxs]

/-- The classification step in DRAFT9 once the scan has found binding `b`. -/
theorem parse_recv_classify_draft9_hit {Agent : Type}
    (priv : turn_priv Agent) (len : Nat) (buf : List Nat) (recv_from : NiceAddress)
    (recv_buf : List Nat) (recv_len : Nat) (b : ChannelBinding)
    (hd : priv.compatibility = NiceUdpTurnSocketCompatibility.DRAFT9)
    (hfind : recv_find_binding NiceUdpTurnSocketCompatibility.DRAFT9 recv_buf priv.channels =
      some b) :
    parse_recv_classify priv len buf recv_from recv_buf recv_len =
      ⟨((min len (ntohs_at recv_buf 1) : Nat) : Int), some b.peer,
        (recv_buf.drop 4).take (min len (ntohs_at recv_buf 1)) ++
          buf.drop (min len (ntohs_at recv_buf 1)),
        priv, []⟩ := by
  have hL := ntohs_at_lt recv_buf 1
  have hn : (if len > ntohs_at recv_buf 1 then ntohs_at recv_buf 1 else len) =
      min len (ntohs_at recv_buf 1) := by
    split <;> omega
  simp only [parse_recv_classify, hd, hfind, Option.isSome_some, and_self, if_true,
    hn, memmove]
  rw [toGint_of_lt _ (by omega)]

/-- C8 (evaluation at the failing input): the base transport's `recv` fails
with `-1`; `recv_from` and the scratch buffer hold whatever the locals held.
With a user buffer of eight bytes the TURN `recv` returns 8, not `-1`, reports
the stale address as source and copies eight stale bytes, in each of the
three dialects. -/
theorem recv_base_failure_not_reported :
    toGuint (-1) = 4294967295 ∧
    socket_recv fakeLib (fresh NiceUdpTurnSocketCompatibility.DRAFT9) 8
        [0, 0, 0, 0, 0, 0, 0, 0] (-1) peerP [1, 2, 3, 4, 5, 6, 7, 8, 9, 10] =
      ⟨8, some peerP, [1, 2, 3, 4, 5, 6, 7, 8],
        fresh NiceUdpTurnSocketCompatibility.DRAFT9, []⟩ ∧
    (socket_recv fakeLib (fresh NiceUdpTurnSocketCompatibility.MSN) 8
        [0, 0, 0, 0, 0, 0, 0, 0] (-1) peerP [1, 2, 3, 4, 5, 6, 7, 8, 9, 10]).ret = 8 ∧
    (socket_recv fakeLib (fresh NiceUdpTurnSocketCompatibility.GOOGLE) 8
        [0, 0, 0, 0, 0, 0, 0, 0] (-1) peerP [1, 2, 3, 4, 5, 6, 7, 8, 9, 10]).ret = 8 := by
  decide

/-- For every STUN library, state without bindings, stale source other than the
server and user length below `2^31`: after a failed base `recv` the TURN
`recv` returns the user length. -/
theorem recv_base_failure_returns_len {Agent Msg : Type} (L : StunLib Agent Msg)
    (priv : turn_priv Agent) (len : Nat) (buf : List Nat) (recv_from : NiceAddress)
    (recv_buf : List Nat)
    (hc : priv.channels = []) (hfrom : recv_from ≠ priv.server_addr)
    (hlen : len < 2 ^ 31) :
    (socket_recv L priv len buf (-1) recv_from recv_buf).ret = (len : Int) := by
  unfold socket_recv
  rw [parse_recv_not_from_server L priv len buf recv_from recv_buf _ hfrom]
  have hg : toGuint (-1) = 4294967295 := by decide
  have hn : ¬ (len > 4294967295) := by omega
  simp only [parse_recv_classify, hc, recv_find_binding, Option.isSome_none,
    Bool.false_eq_true, false_and, if_false, hg, hn]
  exact toGint_of_lt len hlen

/-- C9: in DRAFT9, when a received datagram reaches the classification step
and its first big-endian 16-bit word equals the channel of a binding, `recv`
takes the first such binding `b` in list order, reports `b.peer` as source,
takes the second big-endian 16-bit word `L` as payload length, copies
`min (user_len, L)` bytes starting at offset 4 of the received buffer into the
user buffer and returns `min (user_len, L)`; the state is unchanged and
nothing is sent.  A datagram that does not come from the server always
reaches that step. -/
theorem draft9_classify_channel_data {Agent Msg : Type} (L : StunLib Agent Msg)
    (priv : turn_priv Agent) (len : Nat) (buf : List Nat) (recv_from : NiceAddress)
    (recv_buf : List Nat) (recv_len : Nat) (pre post : List ChannelBinding)
    (b : ChannelBinding)
    (hd : priv.compatibility = NiceUdpTurnSocketCompatibility.DRAFT9)
    (hsplit : priv.channels = pre ++ b :: post)
    (hpre : ∀ x ∈ pre, x.channel ≠ ntohs_at recv_buf 0)
    (hb : b.channel = ntohs_at recv_buf 0) :
    parse_recv_classify priv len buf recv_from recv_buf recv_len =
      ⟨((min len (ntohs_at recv_buf 1) : Nat) : Int), some b.peer,
        (recv_buf.drop 4).take (min len (ntohs_at recv_buf 1)) ++
          buf.drop (min len (ntohs_at recv_buf 1)),
        priv, []⟩ ∧
    ntohs_at recv_buf 0 = (recv_buf.getD 0 0 % 256) * 256 + recv_buf.getD 1 0 % 256 ∧
    ntohs_at recv_buf 1 = (recv_buf.getD 2 0 % 256) * 256 + recv_buf.getD 3 0 % 256 ∧
    (recv_from ≠ priv.server_addr →
      nice_udp_turn_socket_parse_recv L priv len buf recv_from recv_buf recv_len =
        parse_recv_classify priv len buf recv_from recv_buf recv_len) := by
  refine ⟨?_, rfl, rfl, parse_recv_not_from_server L priv len buf recv_from recv_buf recv_len⟩
  have hfind := recv_find_binding_draft9 recv_buf pre post b hpre hb
  rw [← hsplit] at hfind
  exact parse_recv_classify_draft9_hit priv len buf recv_from recv_buf recv_len b hd hfind

/-- Witness for C9: the DRAFT9 state with `peerP` bound to `0x4000` classifies
`40 00 00 03 'a' 'b' 'c'` with a four-byte user buffer. -/
theorem draft9_classify_channel_data_witness :
    draft9_bound.compatibility = NiceUdpTurnSocketCompatibility.DRAFT9 ∧
    draft9_bound.channels = [] ++ ⟨peerP, 0x4000⟩ :: [] ∧
    (0x4000 : Nat) = ntohs_at [0x40, 0, 0, 3, 97, 98, 99] 0 ∧
    parse_recv_classify draft9_bound 4 [0, 0, 0, 0] serverS [0x40, 0, 0, 3, 97, 98, 99] 7 =
      ⟨3, some peerP, [97, 98, 99, 0], draft9_bound, []⟩ :=
  ⟨by decide, by decide, by decide,
    (draft9_classify_channel_data fakeLib draft9_bound 4 [0, 0, 0, 0] serverS
      [0x40, 0, 0, 3, 97, 98, 99] 7 [] [] ⟨peerP, 0x4000⟩
      (by decide) (by decide) (by simp) (by decide)).1⟩

/-! ### Round trip -/

/-- A non-negative count below `2^32` survives the conversion to `guint`. -/
theorem toGuint_natCast (n : Nat) (h : n < 2 ^ 32) : toGuint (n : Int) = n := by
  unfold toGuint
  have : ((n : Int) % 2 ^ 32) = (n : Int) := Int.emod_eq_of_lt (by omega) (by omega)
  rw [this]
  simp

/-- With pairwise distinct channels, the DRAFT9 scan of the classification
step finds exactly the binding that owns the leading 16-bit word. -/
theorem recv_find_binding_of_distinct (recv_buf : List Nat) (cs : List ChannelBinding)
    (b : ChannelBinding)
    (hdistinct : cs.Pairwise (fun x y => x.channel ≠ y.channel))
    (hmem : b ∈ cs) (hb : b.channel = ntohs_at recv_buf 0) :
    recv_find_binding NiceUdpTurnSocketCompatibility.DRAFT9 recv_buf cs = some b := by
  induction cs with
  | nil => simp at hmem
  | cons x xs ih =>
    rw [List.pairwise_cons] at hdistinct
    rcases List.mem_cons.mp hmem with hbx | hbxs
    · subst hbx
      simp [recv_find_binding, hb]
    · have hx : x.channel ≠ ntohs_at recv_buf 0 := by
        rw [← hb]
        exact hdistinct.1 b hbxs
      simp [recv_find_binding, hx, ih hdistinct.2 hbxs]

/-- The first two 16-bit words of a ChannelData frame are the channel and the
payload length, each truncated to 16 bits, and the payload follows. -/
theorem channel_data_frame_parse (channel : Nat) (data tail : List Nat) :
    ntohs_at (channel_data_frame channel data ++ tail) 0 = channel % 65536 ∧
    ntohs_at (channel_data_frame channel data ++ tail) 1 = data.length % 65536 ∧
    (channel_data_frame channel data ++ tail).drop 4 = data ++ tail := by
  refine ⟨?_, ?_, ?_⟩
  · simp only [ntohs_at, channel_data_frame, htons_bytes, List.cons_append, List.nil_append,
      Nat.mul_zero, Nat.zero_add, List.getD_cons_zero, List.getD_cons_succ]
    omega
  · simp only [ntohs_at, channel_data_frame, htons_bytes, List.cons_append, List.nil_append,
      Nat.mul_one, List.getD_cons_zero, List.getD_cons_succ]
    omega
  · simp [channel_data_frame, htons_bytes]

/-- C10: DRAFT9 round trip.  In a state whose bindings have pairwise distinct
(16-bit) channels and in which the lookup of `send` finds the binding `b` for
peer `P`, for every `data` of at most 1200 bytes and every user buffer length
`len >= |data|`: `send (P, data)` places one ChannelData frame on the base
transport, addressed to the server; when that frame comes back from the
server (the scratch buffer holding it followed by arbitrary bytes) and does
not validate as a STUN message, `recv` returns `|data|`, reports `P` as source
and the user buffer starts with exactly `data`.  The message buffer of the
STUN library must hold 1204 bytes. -/
theorem draft9_round_trip {Agent Msg : Type} (L : StunLib Agent Msg)
    (priv : turn_priv Agent) (P : NiceAddress) (data : List Nat) (len : Nat)
    (buf tail : List Nat) (b : ChannelBinding)
    (hd : priv.compatibility = NiceUdpTurnSocketCompatibility.DRAFT9)
    (hdistinct : priv.channels.Pairwise (fun x y => x.channel ≠ y.channel))
    (htyped : ∀ x ∈ priv.channels, x.channel < 65536)
    (hfind : priv.channels.find? (fun x => nice_address_equal x.peer P) = some b)
    (hdata : data.length ≤ 1200)
    (hmax : 1204 ≤ L.STUN_MAX_MESSAGE_SIZE)
    (hlen : data.length ≤ len)
    (hv : (L.stun_agent_validate priv.agent (channel_data_frame b.channel data ++ tail)
      (data.length + 4)).2 = none) :
    socket_send L priv P data =
      ⟨true, priv, [⟨priv.server_addr, channel_data_frame b.channel data⟩]⟩ ∧
    (socket_recv L (socket_send L priv P data).priv len buf
        (((channel_data_frame b.channel data).length : Nat) : Int) priv.server_addr
        (channel_data_frame b.channel data ++ tail)).ret = (data.length : Int) ∧
    (socket_recv L (socket_send L priv P data).priv len buf
        (((channel_data_frame b.channel data).length : Nat) : Int) priv.server_addr
        (channel_data_frame b.channel data ++ tail)).from_ = some P ∧
    (socket_recv L (socket_send L priv P data).priv len buf
        (((channel_data_frame b.channel data).length : Nat) : Int) priv.server_addr
        (channel_data_frame b.channel data ++ tail)).buf = data ++ buf.drop data.length ∧
    ((socket_recv L (socket_send L priv P data).priv len buf
        (((channel_data_frame b.channel data).length : Nat) : Int) priv.server_addr
        (channel_data_frame b.channel data ++ tail)).buf).take data.length = data := by
  have hsend := socket_send_draft9_fits L priv P data b hd hfind (by omega)
  have hflen : (channel_data_frame b.channel data).length = data.length + 4 := by
    simp [channel_data_frame, htons_bytes]
  obtain ⟨hpeer, hmem⟩ := send_lookup_peer _ _ _ hfind
  obtain ⟨hw0, hw1, hdrop⟩ := channel_data_frame_parse b.channel data tail
  have hc : b.channel % 65536 = b.channel := Nat.mod_eq_of_lt (htyped b hmem)
  have hl : data.length % 65536 = data.length := Nat.mod_eq_of_lt (by omega)
  rw [hc] at hw0
  rw [hl] at hw1
  have hscan := recv_find_binding_of_distinct (channel_data_frame b.channel data ++ tail)
    priv.channels b hdistinct hmem hw0.symm
  have hrecv : socket_recv L (socket_send L priv P data).priv len buf
      (((channel_data_frame b.channel data).length : Nat) : Int) priv.server_addr
      (channel_data_frame b.channel data ++ tail) =
      ⟨(data.length : Int), some P, data ++ buf.drop data.length,
        { priv with agent := (L.stun_agent_validate priv.agent
            (channel_data_frame b.channel data ++ tail) (data.length + 4)).1 }, []⟩ := by
    rw [hsend, hflen]
    unfold socket_recv
    rw [toGuint_natCast _ (by omega)]
    rw [parse_recv_not_valid L priv len buf priv.server_addr _ _ rfl hv]
    rw [parse_recv_classify_draft9_hit
      { priv with agent := (L.stun_agent_validate priv.agent
          (channel_data_frame b.channel data ++ tail) (data.length + 4)).1 }
      len buf priv.server_addr _ _ b hd hscan]
    have hmin : min len data.length = data.length := by omega
    rw [hw1, hdrop, hmin, hpeer, List.take_left]
  rw [hrecv]
  exact ⟨hsend, rfl, rfl, rfl, List.take_left _ _⟩

/-- Witness for C10: `send (peerP, "hi")` in the DRAFT9 state where `peerP` is
bound, echoed by the server into a scratch buffer with two stale bytes behind
the frame, received into a four-byte user buffer. -/
theorem draft9_round_trip_witness :
    draft9_bound.compatibility = NiceUdpTurnSocketCompatibility.DRAFT9 ∧
    draft9_bound.channels.Pairwise (fun x y => x.channel ≠ y.channel) ∧
    (∀ x ∈ draft9_bound.channels, x.channel < 65536) ∧
    draft9_bound.channels.find? (fun x => nice_address_equal x.peer peerP) =
      some ⟨peerP, 0x4000⟩ ∧
    (fakeLib.stun_agent_validate draft9_bound.agent
      (channel_data_frame 0x4000 [104, 105] ++ [7, 7]) ([104, 105].length + 4)).2 = none ∧
    (socket_recv fakeLib (socket_send fakeLib draft9_bound peerP [104, 105]).priv 4 [0, 0, 0, 0]
        (((channel_data_frame 0x4000 [104, 105]).length : Nat) : Int) draft9_bound.server_addr
        (channel_data_frame 0x4000 [104, 105] ++ [7, 7])).buf = [104, 105] ++ [0, 0] :=
  ⟨by decide, by decide, by decide, by decide, by decide,
    (draft9_round_trip fakeLib draft9_bound peerP [104, 105] 4 [0, 0, 0, 0] [7, 7]
      ⟨peerP, 0x4000⟩ (by decide) (by decide) (by decide) (by decide) (by decide)
      (by decide) (by decide) (by decide)).2.2.2.1⟩

/-! ### Passthrough and first-binding delivery -/

/-- The classification step never changes the state and never sends. -/
theorem parse_recv_classify_frame {Agent : Type} (priv : turn_priv Agent) (len : Nat)
    (buf : List Nat) (recv_from : NiceAddress) (recv_buf : List Nat) (recv_len : Nat) :
    (parse_recv_classify priv len buf recv_from recv_buf recv_len).priv = priv ∧
    (parse_recv_classify priv len buf recv_from recv_buf recv_len).sent = [] :=
  ⟨rfl, rfl⟩

/-- The scan of the classification step finds nothing exactly when every
binding is a DRAFT9 binding whose channel differs from the leading word. -/
theorem recv_find_binding_none (compat : NiceUdpTurnSocketCompatibility)
    (recv_buf : List Nat) (cs : List ChannelBinding)
    (h : ∀ b ∈ cs, compat = NiceUdpTurnSocketCompatibility.DRAFT9 ∧
      b.channel ≠ ntohs_at recv_buf 0) :
    recv_find_binding compat recv_buf cs = none := by
  induction cs with
  | nil => rfl
  | cons x xs ih =>
    have hx := h x (List.mem_cons_self _ _)
    have hxs : ∀ b ∈ xs, compat = NiceUdpTurnSocketCompatibility.DRAFT9 ∧
        b.channel ≠ ntohs_at recv_buf 0 := fun b hb => h b (List.mem_cons_of_mem _ hb)
    simp [recv_find_binding, hx.1, hx.2]
    have := ih hxs
    rw [hx.1] at this
    exact this

/-- The count `len > recv_len ? recv_len : len` is the minimum of the two. -/
theorem ternary_min (len recv_len : Nat) :
    (if len > recv_len then recv_len else len) = min len recv_len := by
  split <;> omega

/-- C11: passthrough receive.  When a datagram of `recv_len` bytes from address
`A` reaches the classification step and no binding matches (every binding is a
DRAFT9 binding whose channel differs from the leading word; in particular when
there are no bindings), `recv` returns `min (user_len, recv_len)`, reports `A`
as source, and the first `min (user_len, recv_len)` bytes of the user buffer
are the first bytes of the datagram; the state is unchanged and nothing is
sent.  A datagram whose source is not the server always reaches that step. -/
theorem passthrough_receive {Agent Msg : Type} (L : StunLib Agent Msg)
    (priv : turn_priv Agent) (len : Nat) (buf : List Nat) (A : NiceAddress)
    (recv_buf : List Nat) (recv_len : Nat)
    (hnone : ∀ b ∈ priv.channels,
      priv.compatibility = NiceUdpTurnSocketCompatibility.DRAFT9 ∧
      b.channel ≠ ntohs_at recv_buf 0)
    (hn : recv_len < 2 ^ 31)
    (hbuf : recv_len ≤ recv_buf.length) :
    parse_recv_classify priv len buf A recv_buf recv_len =
      ⟨((min len recv_len : Nat) : Int), some A,
        recv_buf.take (min len recv_len) ++ buf.drop (min len recv_len), priv, []⟩ ∧
    (recv_buf.take (min len recv_len) ++ buf.drop (min len recv_len)).take (min len recv_len) =
      (recv_buf.take recv_len).take (min len recv_len) ∧
    (A ≠ priv.server_addr →
      nice_udp_turn_socket_parse_recv L priv len buf A recv_buf recv_len =
        parse_recv_classify priv len buf A recv_buf recv_len) := by
  refine ⟨?_, ?_, parse_recv_not_from_server L priv len buf A recv_buf recv_len⟩
  · have hfind := recv_find_binding_none priv.compatibility recv_buf priv.channels hnone
    simp only [parse_recv_classify, hfind, Option.isSome_none, Bool.false_eq_true, false_and,
      if_false, ternary_min, memmove]
    rw [toGint_of_lt _ (by omega)]
  · have hlen : (recv_buf.take (min len recv_len)).length = min len recv_len := by
      rw [List.length_take]
      omega
    rw [List.take_append_of_le_length (by omega), List.take_of_length_le (by omega),
      List.take_take]
    congr 1
    omega

/-- Witness for C11: seven bytes `80 'l' 'a' 'l' 'a' 'l' 'a'` from
`192.168.0.1` on a socket without bindings, received into a buffer of 1024
bytes: `recv` returns 7. -/
theorem passthrough_receive_witness :
    (∀ b ∈ (fresh NiceUdpTurnSocketCompatibility.DRAFT9).channels,
      (fresh NiceUdpTurnSocketCompatibility.DRAFT9).compatibility =
        NiceUdpTurnSocketCompatibility.DRAFT9 ∧
      b.channel ≠ ntohs_at [0x80, 108, 97, 108, 97, 108, 97] 0) ∧
    (7 : Nat) ≤ [0x80, 108, 97, 108, 97, 108, 97].length ∧
    (parse_recv_classify (fresh NiceUdpTurnSocketCompatibility.DRAFT9) 1024
      (List.replicate 1024 0) peerP [0x80, 108, 97, 108, 97, 108, 97] 7).ret = 7 :=
  ⟨by decide, by decide,
    congrArg RecvResult.ret
      (passthrough_receive fakeLib (fresh NiceUdpTurnSocketCompatibility.DRAFT9) 1024
        (List.replicate 1024 0) peerP [0x80, 108, 97, 108, 97, 108, 97] 7
        (by decide) (by decide) (by decide)).1⟩

/-- C20: in MSN and GOOGLE, when a datagram of `recv_len` bytes reaches the
classification step while the bindings are non-empty, `recv` reports the peer
of the first binding as source, whatever address the datagram came from,
copies from offset 0 of the received buffer (no header is stripped) and
returns `min (user_len, recv_len)`; the state is unchanged and nothing is
sent. -/
theorem first_binding_delivery {Agent Msg : Type} (L : StunLib Agent Msg)
    (priv : turn_priv Agent) (len : Nat) (buf : List Nat) (A : NiceAddress)
    (recv_buf : List Nat) (recv_len : Nat) (b : ChannelBinding) (rest : List ChannelBinding)
    (hc : priv.compatibility = NiceUdpTurnSocketCompatibility.MSN ∨
      priv.compatibility = NiceUdpTurnSocketCompatibility.GOOGLE)
    (hb : priv.channels = b :: rest)
    (hn : recv_len < 2 ^ 31) :
    parse_recv_classify priv len buf A recv_buf recv_len =
      ⟨((min len recv_len : Nat) : Int), some b.peer,
        recv_buf.take (min len recv_len) ++ buf.drop (min len recv_len), priv, []⟩ ∧
    (A ≠ priv.server_addr →
      nice_udp_turn_socket_parse_recv L priv len buf A recv_buf recv_len =
        parse_recv_classify priv len buf A recv_buf recv_len) := by
  refine ⟨?_, parse_recv_not_from_server L priv len buf A recv_buf recv_len⟩
  have hnd : priv.compatibility ≠ NiceUdpTurnSocketCompatibility.DRAFT9 := by
    rcases hc with h | h <;> rw [h] <;> decide
  simp only [parse_recv_classify, hb, recv_find_binding, hnd, if_false, and_false,
    ternary_min, memmove]
  rw [toGint_of_lt _ (by omega)]

/-- Witness for C20: the GOOGLE state with `peerQ` bound receives three bytes
from `peerR`; the source reported is `peerQ`. -/
theorem first_binding_delivery_witness :
    (google_rebinding.compatibility = NiceUdpTurnSocketCompatibility.MSN ∨
      google_rebinding.compatibility = NiceUdpTurnSocketCompatibility.GOOGLE) ∧
    google_rebinding.channels = ⟨peerQ, 0⟩ :: [] ∧
    parse_recv_classify google_rebinding 2 [0, 0] peerR [5, 6, 7] 3 =
      ⟨2, some peerQ, [5, 6], google_rebinding, []⟩ :=
  ⟨by decide, by decide,
    (first_binding_delivery fakeLib google_rebinding 2 [0, 0] peerR [5, 6, 7] 3
      ⟨peerQ, 0⟩ [] (by decide) (by decide) (by decide)).1⟩

/-! ### Send and set_peer: return values and frames -/

/-- Every path of `socket_send` returns true, changes nothing of the state but
the STUN agent and hands exactly one datagram to the base socket, addressed
to the server or to the destination. -/
theorem socket_send_frame {Agent Msg : Type} (L : StunLib Agent Msg)
    (priv : turn_priv Agent) (to_ : NiceAddress) (buf : List Nat) :
    (socket_send L priv to_ buf).ret = true ∧
    (socket_send L priv to_ buf).priv =
      { priv with agent := (socket_send L priv to_ buf).priv.agent } ∧
    ∃ d, (socket_send L priv to_ buf).sent = [d] ∧
      (d.to_ = priv.server_addr ∨ d = ⟨to_, buf⟩) := by
  unfold socket_send
  simp only []
  repeat' split
  all_goals
    first
    | exact ⟨rfl, rfl, _, rfl, Or.inl rfl⟩
    | exact ⟨rfl, rfl, _, rfl, Or.inr rfl⟩

/-- C13: `send` returns true in every dialect and state, for every destination
and payload, whether the payload was framed, wrapped in a STUN message or
passed through, and it never changes the bindings or the pending binding; it
hands exactly one datagram to the base transport, whose boolean result the
code discards (it is not an input of `socket_send`). -/
theorem send_returns_true {Agent Msg : Type} (L : StunLib Agent Msg)
    (priv : turn_priv Agent) (to_ : NiceAddress) (buf : List Nat) :
    (socket_send L priv to_ buf).ret = true ∧
    (socket_send L priv to_ buf).priv.channels = priv.channels ∧
    (socket_send L priv to_ buf).priv.current_binding = priv.current_binding ∧
    (socket_send L priv to_ buf).sent.length = 1 := by
  obtain ⟨h1, h2, d, h3, _⟩ := socket_send_frame L priv to_ buf
  refine ⟨h1, ?_, ?_, ?_⟩
  · rw [h2]
  · rw [h2]
  · rw [h3]
    rfl

/-- C14: in GOOGLE, in every state with no pending binding, `set_peer (P)`
returns true, sends nothing on the base transport, sets the pending binding to
`(P, 0)` and leaves the bindings (and the rest of the state) unchanged. -/
theorem google_set_peer {Agent Msg : Type} (L : StunLib Agent Msg) (fuel : Nat)
    (priv : turn_priv Agent) (P : NiceAddress)
    (hg : priv.compatibility = NiceUdpTurnSocketCompatibility.GOOGLE)
    (hp : priv.current_binding = none) :
    nice_udp_turn_socket_set_peer L fuel priv P =
      some ⟨true, { priv with current_binding := some ⟨P, 0⟩ }, []⟩ := by
  unfold nice_udp_turn_socket_set_peer
  simp [hp, hg]

/-- Witness for C14: `set_peer (peerP)` on a new GOOGLE socket. -/
theorem google_set_peer_witness :
    (fresh NiceUdpTurnSocketCompatibility.GOOGLE).compatibility =
      NiceUdpTurnSocketCompatibility.GOOGLE ∧
    (fresh NiceUdpTurnSocketCompatibility.GOOGLE).current_binding = none ∧
    nice_udp_turn_socket_set_peer fakeLib 0 (fresh NiceUdpTurnSocketCompatibility.GOOGLE) peerP =
      some ⟨true,
        { fresh NiceUdpTurnSocketCompatibility.GOOGLE with
          current_binding := some ⟨peerP, 0⟩ }, []⟩ :=
  ⟨by decide, by decide,
    google_set_peer fakeLib 0 (fresh NiceUdpTurnSocketCompatibility.GOOGLE) peerP
      (by decide) (by decide)⟩

/-! ### Receive: the control path and its side effects -/

/-- In MSN and GOOGLE a validated message from the server without a
MAGIC_COOKIE attribute equal to the TURN magic goes to the classification
step. -/
theorem parse_recv_bad_cookie {Agent Msg : Type} (L : StunLib Agent Msg)
    (priv : turn_priv Agent) (len : Nat) (buf : List Nat) (recv_from : NiceAddress)
    (recv_buf : List Nat) (recv_len : Nat) (msg : Msg)
    (hfrom : recv_from = priv.server_addr)
    (hv : (L.stun_agent_validate priv.agent recv_buf recv_len).2 = some msg)
    (hc : priv.compatibility ≠ NiceUdpTurnSocketCompatibility.DRAFT9)
    (hcookie : L.stun_message_find32 msg StunAttr.MAGIC_COOKIE ≠ some L.TURN_MAGIC_COOKIE) :
    nice_udp_turn_socket_parse_recv L priv len buf recv_from recv_buf recv_len =
      parse_recv_classify
        { priv with agent := (L.stun_agent_validate priv.agent recv_buf recv_len).1 }
        len buf recv_from recv_buf recv_len := by
  unfold nice_udp_turn_socket_parse_recv
  simp only [hfrom, nice_address_equal, decide_True, if_true, hv, ne_eq, hc, not_false_eq_true,
    hcookie, and_self]

/-- C17: no control side effects off the control path.  For a received datagram
whose source differs from the server address, or that fails STUN validation,
or (MSN/GOOGLE) whose validated message has no MAGIC_COOKIE attribute equal to
the TURN magic, `recv` leaves the bindings and the pending binding unchanged
and sends nothing on the base transport: the datagram is handled by the
classification step. -/
theorem no_control_side_effects {Agent Msg : Type} (L : StunLib Agent Msg)
    (priv : turn_priv Agent) (len : Nat) (buf : List Nat) (recv_from : NiceAddress)
    (recv_buf : List Nat) (recv_len : Nat)
    (h : recv_from ≠ priv.server_addr ∨
      (L.stun_agent_validate priv.agent recv_buf recv_len).2 = none ∨
      (priv.compatibility ≠ NiceUdpTurnSocketCompatibility.DRAFT9 ∧
        ∀ msg, (L.stun_agent_validate priv.agent recv_buf recv_len).2 = some msg →
          L.stun_message_find32 msg StunAttr.MAGIC_COOKIE ≠ some L.TURN_MAGIC_COOKIE)) :
    (nice_udp_turn_socket_parse_recv L priv len buf recv_from recv_buf recv_len).priv.channels =
      priv.channels ∧
    (nice_udp_turn_socket_parse_recv L priv len buf recv_from recv_buf
      recv_len).priv.current_binding = priv.current_binding ∧
    (nice_udp_turn_socket_parse_recv L priv len buf recv_from recv_buf recv_len).sent = [] ∧
    (∃ p, nice_udp_turn_socket_parse_recv L priv len buf recv_from recv_buf recv_len =
      parse_recv_classify p len buf recv_from recv_buf recv_len ∧
      p.channels = priv.channels ∧ p.compatibility = priv.compatibility) := by
  by_cases hfrom : recv_from = priv.server_addr
  · cases hv : (L.stun_agent_validate priv.agent recv_buf recv_len).2 with
    | none =>
      rw [parse_recv_not_valid L priv len buf recv_from recv_buf recv_len hfrom hv]
      exact ⟨rfl, rfl, rfl, _, rfl, rfl, rfl⟩
    | some msg =>
      rcases h with h | h | ⟨hc, hcookie⟩
      · exact absurd hfrom h
      · rw [hv] at h
        cases h
      · rw [parse_recv_bad_cookie L priv len buf recv_from recv_buf recv_len msg hfrom hv hc
          (hcookie msg hv)]
        exact ⟨rfl, rfl, rfl, _, rfl, rfl, rfl⟩
  · rw [parse_recv_not_from_server L priv len buf recv_from recv_buf recv_len hfrom]
    exact ⟨rfl, rfl, rfl, _, rfl, rfl, rfl⟩

/-- Witness for C17: the MSN state with `peerP` pending receives, from the
server, an OLD_SET_ACTIVE_DESTINATION response without the magic cookie; the
pending binding stays pending. -/
theorem no_control_side_effects_witness :
    (msn_pending.compatibility ≠ NiceUdpTurnSocketCompatibility.DRAFT9 ∧
      ∀ msg, (fakeLib.stun_agent_validate msn_pending.agent [0, 2, 6, 0, 0] 5).2 = some msg →
        fakeLib.stun_message_find32 msg StunAttr.MAGIC_COOKIE ≠
          some fakeLib.TURN_MAGIC_COOKIE) ∧
    (nice_udp_turn_socket_parse_recv fakeLib msn_pending 0 [] serverS [0, 2, 6, 0, 0]
      5).priv.current_binding = msn_pending.current_binding :=
  ⟨⟨by decide, by
      intro msg hmsg
      have hm : (fakeLib.stun_agent_validate msn_pending.agent [0, 2, 6, 0, 0] 5).2 =
          some ⟨StunClass.STUN_RESPONSE, StunMethod.STUN_OLD_SET_ACTIVE_DST,
            [(StunAttr.MAGIC_COOKIE, 0), (StunAttr.OPTIONS, 0)], [], []⟩ := by decide
      rw [hm] at hmsg
      cases hmsg
      decide⟩,
    (no_control_side_effects fakeLib msn_pending 0 [] serverS [0, 2, 6, 0, 0] 5
      (Or.inr (Or.inr ⟨by decide, by
        intro msg hmsg
        have hm : (fakeLib.stun_agent_validate msn_pending.agent [0, 2, 6, 0, 0] 5).2 =
            some ⟨StunClass.STUN_RESPONSE, StunMethod.STUN_OLD_SET_ACTIVE_DST,
              [(StunAttr.MAGIC_COOKIE, 0), (StunAttr.OPTIONS, 0)], [], []⟩ := by decide
        rw [hm] at hmsg
        cases hmsg
        decide⟩))).2.1⟩

/-! ### MSN set_peer -/

/-- In the test library every call succeeds. -/
theorem fakeLib_builds : BuildsAlways fakeLib where
  init_request := fun _ _ => rfl
  init_indication := fun _ _ => rfl
  append32 := fun _ _ _ => rfl
  append_bytes := fun _ _ _ => rfl
  append_addr := fun _ _ _ => rfl
  append_xor_addr := fun _ _ _ => rfl
  finish_message := fun _ m _ => by
    simp [fakeLib, fake_encode]

/-- An append that returns 0 passes the message on. -/
theorem append_ok_of_zero {Msg : Type} (r : Int × Msg) (h : r.1 = 0) :
    append_ok r = some r.2 := by
  simp [append_ok, h]

/-- An append that returns a non-zero code stops the construction. -/
theorem append_ok_of_ne_zero {Msg : Type} (r : Int × Msg) (h : r.1 ≠ 0) :
    append_ok r = none := by
  simp [append_ok, h]

/-- With a library whose calls succeed the optional USERNAME step yields a
message. -/
theorem append_username_builds {Agent Msg : Type} (L : StunLib Agent Msg)
    (B : BuildsAlways L) (priv : turn_priv Agent) (m : Msg) :
    ∃ m', append_username L priv m = some m' := by
  unfold append_username
  split
  · exact ⟨_, append_ok_of_zero _ (B.append_bytes _ _ _)⟩
  · exact ⟨_, rfl⟩

/-- With a library whose calls succeed the MSN request is built. -/
theorem set_active_dst_message_builds {Agent Msg : Type} (L : StunLib Agent Msg)
    (B : BuildsAlways L) (priv : turn_priv Agent) (peer : NiceAddress) (m0 : Msg) :
    ∃ m, set_active_dst_message L priv peer (some m0) = some m := by
  obtain ⟨m2, h2⟩ := append_username_builds L B priv
    (L.stun_message_append32 m0 StunAttr.MAGIC_COOKIE L.TURN_MAGIC_COOKIE).2
  refine ⟨(L.stun_message_append_addr m2 StunAttr.DESTINATION_ADDRESS peer).2, ?_⟩
  simp [set_active_dst_message, append_ok_of_zero _ (B.append32 _ _ _), h2,
    append_ok_of_zero _ (B.append_addr _ _ _)]

/-- C15 (counterexample): in MSN with no pending binding, when
`stun_agent_init_request` fails, `set_peer` returns false, sends nothing and
leaves the pending binding absent. -/
theorem msn_set_peer_codec_failure :
    (fresh NiceUdpTurnSocketCompatibility.MSN).current_binding = none ∧
    set_peer_outcome
        (nice_udp_turn_socket_set_peer fakeLibNoInit 0
          (fresh NiceUdpTurnSocketCompatibility.MSN) peerP) =
      some (false, none, []) := by
  decide

/-- C15 (amended): in MSN, in every state with no pending binding: when every
STUN library call of the request succeeds and the finished message has
non-zero length, `set_peer (P)` returns true, sends that message to the server
and afterwards the pending binding is `(P, 0)`, the bindings being unchanged;
when `stun_agent_init_request` fails, or the MAGIC_COOKIE, USERNAME or
DESTINATION_ADDRESS append returns a non-zero code, it returns false, sends
nothing and the pending binding stays absent. -/
theorem msn_set_peer {Agent Msg : Type} (L : StunLib Agent Msg) (fuel : Nat)
    (priv : turn_priv Agent) (P : NiceAddress)
    (hm : priv.compatibility = NiceUdpTurnSocketCompatibility.MSN)
    (hp : priv.current_binding = none) :
    (BuildsAlways L →
      ∃ a bytes, 0 < bytes.length ∧
        nice_udp_turn_socket_set_peer L fuel priv P =
          some ⟨true, { priv with agent := a, current_binding := some ⟨P, 0⟩ },
            [⟨priv.server_addr, bytes⟩]⟩) ∧
    ((L.stun_agent_init_request priv.agent StunMethod.STUN_OLD_SET_ACTIVE_DST).2 = none →
      set_peer_outcome (nice_udp_turn_socket_set_peer L fuel priv P) =
        some (false, none, [])) ∧
    (∀ m0, (L.stun_agent_init_request priv.agent StunMethod.STUN_OLD_SET_ACTIVE_DST).2 = some m0 →
      (L.stun_message_append32 m0 StunAttr.MAGIC_COOKIE L.TURN_MAGIC_COOKIE).1 ≠ 0 →
      set_peer_outcome (nice_udp_turn_socket_set_peer L fuel priv P) =
        some (false, none, [])) ∧
    (∀ m0 m1 u, (L.stun_agent_init_request priv.agent StunMethod.STUN_OLD_SET_ACTIVE_DST).2 = some m0 →
      L.stun_message_append32 m0 StunAttr.MAGIC_COOKIE L.TURN_MAGIC_COOKIE = (0, m1) →
      has_username priv = some u →
      (L.stun_message_append_bytes m1 StunAttr.USERNAME u).1 ≠ 0 →
      set_peer_outcome (nice_udp_turn_socket_set_peer L fuel priv P) =
        some (false, none, [])) ∧
    (∀ m0 m1 m2, (L.stun_agent_init_request priv.agent StunMethod.STUN_OLD_SET_ACTIVE_DST).2 = some m0 →
      L.stun_message_append32 m0 StunAttr.MAGIC_COOKIE L.TURN_MAGIC_COOKIE = (0, m1) →
      append_username L priv m1 = some m2 →
      (L.stun_message_append_addr m2 StunAttr.DESTINATION_ADDRESS P).1 ≠ 0 →
      set_peer_outcome (nice_udp_turn_socket_set_peer L fuel priv P) =
        some (false, none, [])) := by
  have hset : nice_udp_turn_socket_set_peer L fuel priv P = some (set_peer_msn L priv P) := by
    unfold nice_udp_turn_socket_set_peer
    simp [hp, hm]
  have hfail : set_active_dst_message L priv P
      (L.stun_agent_init_request priv.agent StunMethod.STUN_OLD_SET_ACTIVE_DST).2 = none →
      set_peer_outcome (nice_udp_turn_socket_set_peer L fuel priv P) =
        some (false, none, []) := by
    intro h
    rw [hset]
    simp only [set_peer_outcome, set_peer_msn, h, Option.map_some', hp]
  refine ⟨?_, ?_, ?_, ?_, ?_⟩
  · intro B
    have hi := B.init_request priv.agent StunMethod.STUN_OLD_SET_ACTIVE_DST
    obtain ⟨m0, hm0⟩ := Option.isSome_iff_exists.mp hi
    obtain ⟨m, hmsg⟩ := set_active_dst_message_builds L B priv P m0
    have hfin := B.finish_message
      (L.stun_agent_init_request priv.agent StunMethod.STUN_OLD_SET_ACTIVE_DST).1 m priv.password
    refine ⟨(L.stun_agent_finish_message
      (L.stun_agent_init_request priv.agent StunMethod.STUN_OLD_SET_ACTIVE_DST).1 m
      priv.password).1, _, hfin, ?_⟩
    rw [hset]
    simp only [set_peer_msn, hm0, hmsg, hfin, if_true]
  · intro h
    apply hfail
    simp [h, set_active_dst_message]
  · intro m0 h0 h1
    apply hfail
    simp [h0, set_active_dst_message, append_ok_of_ne_zero _ h1]
  · intro m0 m1 u h0 h1 hu h2
    apply hfail
    have h1' : append_ok (L.stun_message_append32 m0 StunAttr.MAGIC_COOKIE L.TURN_MAGIC_COOKIE) =
        some m1 := by
      rw [append_ok_of_zero _ (by rw [h1]), h1]
    simp [h0, set_active_dst_message, h1', append_username, hu, append_ok_of_ne_zero _ h2]
  · intro m0 m1 m2 h0 h1 hu h2
    apply hfail
    have h1' : append_ok (L.stun_message_append32 m0 StunAttr.MAGIC_COOKIE L.TURN_MAGIC_COOKIE) =
        some m1 := by
      rw [append_ok_of_zero _ (by rw [h1]), h1]
    simp [h0, set_active_dst_message, h1', hu, append_ok_of_ne_zero _ h2]

/-- Witness for C15 (amended): `set_peer (peerP)` on a new MSN socket with the
test library, whose calls all succeed. -/
theorem msn_set_peer_witness :
    (fresh NiceUdpTurnSocketCompatibility.MSN).compatibility =
      NiceUdpTurnSocketCompatibility.MSN ∧
    (fresh NiceUdpTurnSocketCompatibility.MSN).current_binding = none ∧
    ∃ a bytes, 0 < bytes.length ∧
      nice_udp_turn_socket_set_peer fakeLib 0 (fresh NiceUdpTurnSocketCompatibility.MSN) peerP =
        some ⟨true,
          { fresh NiceUdpTurnSocketCompatibility.MSN with
            agent := a, current_binding := some ⟨peerP, 0⟩ },
          [⟨(fresh NiceUdpTurnSocketCompatibility.MSN).server_addr, bytes⟩]⟩ :=
  ⟨by decide, by decide,
    (msn_set_peer fakeLib 0 (fresh NiceUdpTurnSocketCompatibility.MSN) peerP
      (by decide) (by decide)).1 fakeLib_builds⟩

/-! ### Close -/

/-- C16 (counterexample): closing the TURN socket of the DRAFT9 state in which
`peerP` is bound frees that binding and the credentials and makes no call on
the base socket; in particular the base socket is not closed. -/
theorem close_leaves_base_open :
    socket_close draft9_bound =
      ⟨[⟨peerP, 0x4000⟩], some [117], some [112], []⟩ ∧
    BaseCall.close ∉ (socket_close draft9_bound).base_calls := by
  decide

/-- C16 (amended): `close` on the TURN socket frees every binding of the
bindings list and the two credential buffers; it makes no call on the base
transport, which is therefore not closed by it. -/
theorem close_frees_bindings_only {Agent : Type} (priv : turn_priv Agent) :
    (socket_close priv).freed_bindings = priv.channels ∧
    (socket_close priv).freed_username = priv.username ∧
    (socket_close priv).freed_password = priv.password ∧
    (socket_close priv).base_calls = [] ∧
    BaseCall.close ∉ (socket_close priv).base_calls := by
  refine ⟨rfl, rfl, rfl, rfl, ?_⟩
  simp [socket_close]

/-! ### Authentication retry -/

/-- In the variant of the test library that reads REALM and NONCE every call
succeeds. -/
theorem fakeLibAuth_builds : BuildsAlways fakeLibAuth where
  init_request := fun _ _ => rfl
  init_indication := fun _ _ => rfl
  append32 := fun _ _ _ => rfl
  append_bytes := fun _ _ _ => rfl
  append_addr := fun _ _ _ => rfl
  append_xor_addr := fun _ _ _ => rfl
  finish_message := fun _ m _ => by
    simp [fakeLibAuth, fakeLib, fake_encode]

/-- With a library whose calls succeed, the attribute calls of
`priv_send_channel_bind` for a response `resp` build the request of
`spec_retry_request`. -/
theorem channel_bind_message_builds {Agent Msg : Type} (L : StunLib Agent Msg)
    (B : BuildsAlways L) (priv : turn_priv Agent) (resp : Msg) (channel : Nat)
    (peer : NiceAddress) (m0 : Msg) :
    channel_bind_message L priv (some resp) channel peer (some m0) =
      some (spec_retry_request L priv resp channel peer m0) := by
  simp only [channel_bind_message, spec_retry_request, append_username, append_from_resp,
    Option.bind_eq_bind, Option.some_bind, append_ok_of_zero _ (B.append32 _ _ _),
    append_ok_of_zero _ (B.append_xor_addr _ _ _)]
  cases has_username priv <;> cases L.stun_message_find resp StunAttr.REALM <;>
    cases L.stun_message_find resp StunAttr.NONCE <;>
    simp [append_ok_of_zero _ (B.append_bytes _ _ _)]

/-- Whatever the library does, `priv_send_channel_bind` sends nothing or one
datagram addressed to the server. -/
theorem priv_send_channel_bind_sent {Agent Msg : Type} (L : StunLib Agent Msg)
    (priv : turn_priv Agent) (resp : Option Msg) (channel : Nat) (peer : NiceAddress) :
    (priv_send_channel_bind L priv resp channel peer).sent = [] ∨
    ∃ bytes, (priv_send_channel_bind L priv resp channel peer).sent =
      [⟨priv.server_addr, bytes⟩] := by
  unfold priv_send_channel_bind
  simp only []
  split
  · exact Or.inl rfl
  · split
    · exact Or.inr ⟨_, rfl⟩
    · exact Or.inl rfl

/-- The branch of `nice_udp_turn_socket_parse_recv` taken by a validated
message of class ERROR and method CHANNELBIND that passed the cookie test. -/
theorem parse_recv_channelbind_error {Agent Msg : Type} (L : StunLib Agent Msg)
    (priv : turn_priv Agent) (len : Nat) (buf : List Nat) (recv_from : NiceAddress)
    (recv_buf : List Nat) (recv_len : Nat) (msg : Msg)
    (hfrom : recv_from = priv.server_addr)
    (hv : (L.stun_agent_validate priv.agent recv_buf recv_len).2 = some msg)
    (hdisp : priv.compatibility = NiceUdpTurnSocketCompatibility.DRAFT9 ∨
      L.stun_message_find32 msg StunAttr.MAGIC_COOKIE = some L.TURN_MAGIC_COOKIE)
    (hclass : L.stun_message_get_class msg = StunClass.STUN_ERROR)
    (hmeth : L.stun_message_get_method msg = StunMethod.STUN_CHANNELBIND) :
    nice_udp_turn_socket_parse_recv L priv len buf recv_from recv_buf recv_len =
      (match priv.current_binding with
        | some cb =>
          ⟨0, none, buf,
            (priv_send_channel_bind L
              { priv with agent := (L.stun_agent_validate priv.agent recv_buf recv_len).1 }
              (some msg) cb.channel cb.peer).priv,
            (priv_send_channel_bind L
              { priv with agent := (L.stun_agent_validate priv.agent recv_buf recv_len).1 }
              (some msg) cb.channel cb.peer).sent⟩
        | none =>
          ⟨0, none, buf,
            { priv with agent := (L.stun_agent_validate priv.agent recv_buf recv_len).1 },
            []⟩) := by
  have hnot : ¬ (priv.compatibility ≠ NiceUdpTurnSocketCompatibility.DRAFT9 ∧
      L.stun_message_find32 msg StunAttr.MAGIC_COOKIE ≠ some L.TURN_MAGIC_COOKIE) := by
    rcases hdisp with h | h
    · exact fun hh => hh.1 h
    · exact fun hh => hh.2 h
  unfold nice_udp_turn_socket_parse_recv
  simp only [hfrom, nice_address_equal, decide_True, if_true, hv, hnot, if_false, hclass,
    hmeth, reduceCtorEq, false_and, and_self]

/-- C18: authentication retry.  When `recv` processes a validated STUN message
from the server of class ERROR and method CHANNELBIND (in MSN and GOOGLE one
that passed the cookie test): it returns 0 without writing the user buffer or
the source and leaves the bindings and the pending binding unchanged; with
pending `(P, c)` anything it sends is a single datagram to the server, and
with a library whose calls succeed it sends the finished CHANNELBIND request
for channel `c` and peer `P` that carries the REALM and NONCE attributes found
in the error response; with no pending binding nothing is sent and only the
STUN agent, which validated the message, may differ. -/
theorem auth_retry {Agent Msg : Type} (L : StunLib Agent Msg)
    (priv : turn_priv Agent) (len : Nat) (buf : List Nat) (recv_from : NiceAddress)
    (recv_buf : List Nat) (recv_len : Nat) (msg : Msg)
    (hfrom : recv_from = priv.server_addr)
    (hv : (L.stun_agent_validate priv.agent recv_buf recv_len).2 = some msg)
    (hdisp : priv.compatibility = NiceUdpTurnSocketCompatibility.DRAFT9 ∨
      L.stun_message_find32 msg StunAttr.MAGIC_COOKIE = some L.TURN_MAGIC_COOKIE)
    (hclass : L.stun_message_get_class msg = StunClass.STUN_ERROR)
    (hmeth : L.stun_message_get_method msg = StunMethod.STUN_CHANNELBIND) :
    (priv.current_binding = none →
      nice_udp_turn_socket_parse_recv L priv len buf recv_from recv_buf recv_len =
        ⟨0, none, buf,
          { priv with agent := (L.stun_agent_validate priv.agent recv_buf recv_len).1 },
          []⟩) ∧
    (∀ P c, priv.current_binding = some ⟨P, c⟩ →
      (nice_udp_turn_socket_parse_recv L priv len buf recv_from recv_buf recv_len).ret = 0 ∧
      (nice_udp_turn_socket_parse_recv L priv len buf recv_from recv_buf recv_len).from_ = none ∧
      (nice_udp_turn_socket_parse_recv L priv len buf recv_from recv_buf recv_len).buf = buf ∧
      (nice_udp_turn_socket_parse_recv L priv len buf recv_from recv_buf
        recv_len).priv.channels = priv.channels ∧
      (nice_udp_turn_socket_parse_recv L priv len buf recv_from recv_buf
        recv_len).priv.current_binding = some ⟨P, c⟩ ∧
      ((nice_udp_turn_socket_parse_recv L priv len buf recv_from recv_buf recv_len).sent = [] ∨
        ∃ bytes, (nice_udp_turn_socket_parse_recv L priv len buf recv_from recv_buf
          recv_len).sent = [⟨priv.server_addr, bytes⟩]) ∧
      (BuildsAlways L →
        ∃ m0,
          (L.stun_agent_init_request (L.stun_agent_validate priv.agent recv_buf recv_len).1
            StunMethod.STUN_CHANNELBIND).2 = some m0 ∧
          (nice_udp_turn_socket_parse_recv L priv len buf recv_from recv_buf recv_len).sent =
            [⟨priv.server_addr,
              (L.stun_agent_finish_message
                (L.stun_agent_init_request (L.stun_agent_validate priv.agent recv_buf recv_len).1
                  StunMethod.STUN_CHANNELBIND).1
                (spec_retry_request L priv msg c P m0) priv.password).2⟩])) := by
  have key := parse_recv_channelbind_error L priv len buf recv_from recv_buf recv_len msg
    hfrom hv hdisp hclass hmeth
  refine ⟨?_, ?_⟩
  · intro hp
    rw [key, hp]
  · intro P c hp
    obtain ⟨agent, channels, cb, srv, u, pw, compat⟩ := priv
    simp only at hp
    subst hp
    rw [key]
    simp only []
    have hframe := priv_send_channel_bind_frame L
      ⟨(L.stun_agent_validate agent recv_buf recv_len).1, channels, some ⟨P, c⟩, srv, u, pw,
        compat⟩ (some msg) c P
    have hsent := priv_send_channel_bind_sent L
      ⟨(L.stun_agent_validate agent recv_buf recv_len).1, channels, some ⟨P, c⟩, srv, u, pw,
        compat⟩ (some msg) c P
    refine ⟨trivial, trivial, trivial, ?_, ?_, hsent, ?_⟩
    · rw [hframe]
    · rw [hframe]
    · intro B
      have hi := B.init_request (L.stun_agent_validate agent recv_buf recv_len).1
        StunMethod.STUN_CHANNELBIND
      obtain ⟨m0, hm0⟩ := Option.isSome_iff_exists.mp hi
      refine ⟨m0, hm0, ?_⟩
      have hmsg := channel_bind_message_builds L B
        ⟨(L.stun_agent_validate agent recv_buf recv_len).1, channels, some ⟨P, c⟩, srv, u, pw,
          compat⟩ msg c P m0
      have hfin := B.finish_message
        (L.stun_agent_init_request (L.stun_agent_validate agent recv_buf recv_len).1
          StunMethod.STUN_CHANNELBIND).1
        (spec_retry_request L
          ⟨(L.stun_agent_validate agent recv_buf recv_len).1, channels, some ⟨P, c⟩, srv, u, pw,
            compat⟩ msg c P m0) pw
      simp only [priv_send_channel_bind, hm0, hmsg, hfin, if_true]
      rfl

/-- Witness for C18: the DRAFT9 state with `(peerP, 0x4000)` pending receives a
CHANNELBIND error with `REALM = "r"` and `NONCE = "n"`; the pending binding
stays, and the retry on the wire ends with the username byte followed by the
realm and nonce bytes. -/
theorem auth_retry_witness :
    (fakeLibAuth.stun_agent_validate draft9_pending.agent channelbind_error 7).2 =
      some ⟨StunClass.STUN_ERROR, StunMethod.STUN_CHANNELBIND,
        [(StunAttr.MAGIC_COOKIE, 0), (StunAttr.OPTIONS, 0)],
        [(StunAttr.REALM, [114]), (StunAttr.NONCE, [110])], []⟩ ∧
    draft9_pending.current_binding = some ⟨peerP, 0x4000⟩ ∧
    (nice_udp_turn_socket_parse_recv fakeLibAuth draft9_pending 0 [] serverS
      channelbind_error 7).priv.current_binding = some ⟨peerP, 0x4000⟩ ∧
    (nice_udp_turn_socket_parse_recv fakeLibAuth draft9_pending 0 [] serverS
      channelbind_error 7).sent = [⟨serverS, [0, 0, 9, 0, 117, 114, 110]⟩] :=
  ⟨by decide, by decide,
    ((auth_retry fakeLibAuth draft9_pending 0 [] serverS channelbind_error 7
      ⟨StunClass.STUN_ERROR, StunMethod.STUN_CHANNELBIND,
        [(StunAttr.MAGIC_COOKIE, 0), (StunAttr.OPTIONS, 0)],
        [(StunAttr.REALM, [114]), (StunAttr.NONCE, [110])], []⟩
      (by decide) (by decide) (Or.inl (by decide)) (by decide) (by decide)).2
      peerP 0x4000 (by decide)).2.2.2.2.1,
    by decide⟩

/-! ### The OPTIONS flag of GOOGLE -/

/-- The test library satisfies the laws of the OPTIONS lookup. -/
theorem fakeLib_options : OptionsLaws fakeLib where
  init_request := by
    intro a t m h
    simp only [fakeLib, Option.some.injEq] at h
    subst h
    rfl
  append32_options := by
    intro m v h
    simp only [fakeLib, Option.map_eq_none'] at h
    simp [fakeLib, List.find?_append, h]
  append32_other := by
    intro m t v ht
    simp [fakeLib, List.find?_append, ht]
  append_bytes := fun _ _ _ => rfl
  append_addr := fun _ _ _ => rfl

/-- The optional USERNAME step does not touch the OPTIONS lookup. -/
theorem append_username_options {Agent Msg : Type} (L : StunLib Agent Msg)
    (O : OptionsLaws L) (priv : turn_priv Agent) (m m' : Msg)
    (h : append_username L priv m = some m') :
    L.stun_message_find32 m' StunAttr.OPTIONS = L.stun_message_find32 m StunAttr.OPTIONS := by
  unfold append_username at h
  split at h
  · unfold append_ok at h
    split at h
    · cases h
    · cases h
      exact O.append_bytes _ _ _
  · cases h
    rfl

/-- The test of `socket_send` on the pending binding, spelled out. -/
theorem current_binding_is_iff (cb : Option ChannelBinding) (to_ : NiceAddress) :
    current_binding_is cb to_ = true ↔ ∃ b, cb = some b ∧ b.peer = to_ := by
  cases cb with
  | none => simp [current_binding_is]
  | some b => simp [current_binding_is, nice_address_equal]

/-- C19: in GOOGLE, for a destination `to` without a binding, with a STUN
library whose calls succeed and whose OPTIONS lookup reports what was
appended: `send (to, data)` builds a SEND request, sends the finished message
to the server, and the request carries `OPTIONS = 1` if and only if a pending
binding exists whose peer is `to`; otherwise it carries no OPTIONS attribute
at all. -/
theorem google_options_flag {Agent Msg : Type} (L : StunLib Agent Msg)
    (priv : turn_priv Agent) (to_ : NiceAddress) (buf : List Nat)
    (hg : priv.compatibility = NiceUdpTurnSocketCompatibility.GOOGLE)
    (hnb : ∀ b ∈ priv.channels, b.peer ≠ to_)
    (B : BuildsAlways L) (O : OptionsLaws L) :
    ∃ m,
      send_message L priv to_ buf
        (L.stun_agent_init_request priv.agent StunMethod.STUN_SEND).2 = some m ∧
      socket_send L priv to_ buf =
        ⟨true,
          { priv with agent := (L.stun_agent_finish_message
              (L.stun_agent_init_request priv.agent StunMethod.STUN_SEND).1 m priv.password).1 },
          [⟨priv.server_addr, (L.stun_agent_finish_message
              (L.stun_agent_init_request priv.agent StunMethod.STUN_SEND).1 m priv.password).2⟩]⟩ ∧
      (L.stun_message_find32 m StunAttr.OPTIONS = some 1 ↔
        ∃ cb, priv.current_binding = some cb ∧ cb.peer = to_) ∧
      ((¬ ∃ cb, priv.current_binding = some cb ∧ cb.peer = to_) →
        L.stun_message_find32 m StunAttr.OPTIONS = none) := by
  have hfind : priv.channels.find? (fun b => nice_address_equal b.peer to_) = none := by
    rw [List.find?_eq_none]
    intro b hb
    simp only [nice_address_equal, decide_eq_true_eq]
    exact hnb b hb
  have hnd : priv.compatibility ≠ NiceUdpTurnSocketCompatibility.DRAFT9 := by
    rw [hg]
    decide
  obtain ⟨m0, hm0⟩ := Option.isSome_iff_exists.mp
    (B.init_request priv.agent StunMethod.STUN_SEND)
  obtain ⟨m2, h2⟩ := append_username_builds L B priv
    (L.stun_message_append32 m0 StunAttr.MAGIC_COOKIE L.TURN_MAGIC_COOKIE).2
  have hopt2 : L.stun_message_find32 m2 StunAttr.OPTIONS = none := by
    rw [append_username_options L O priv _ m2 h2,
      O.append32_other m0 StunAttr.MAGIC_COOKIE L.TURN_MAGIC_COOKIE (by decide)]
    exact O.init_request priv.agent StunMethod.STUN_SEND m0 hm0
  have hopt3 : L.stun_message_find32
      (L.stun_message_append_addr m2 StunAttr.DESTINATION_ADDRESS to_).2 StunAttr.OPTIONS =
      none := by
    rw [O.append_addr]
    exact hopt2
  by_cases hcond : current_binding_is priv.current_binding to_ = true
  · refine ⟨(L.stun_message_append_bytes
      (L.stun_message_append32
        (L.stun_message_append_addr m2 StunAttr.DESTINATION_ADDRESS to_).2
        StunAttr.OPTIONS 1).2 StunAttr.DATA buf).2, ?_, ?_, ?_, ?_⟩
    · simp [send_message, hm0, hnd, hg, hcond, h2, append_ok_of_zero _ (B.append32 _ _ _),
        append_ok_of_zero _ (B.append_addr _ _ _), append_ok_of_zero _ (B.append_bytes _ _ _)]
    · have hmsg : send_message L priv to_ buf
          (L.stun_agent_init_request priv.agent StunMethod.STUN_SEND).2 = some
          (L.stun_message_append_bytes
            (L.stun_message_append32
              (L.stun_message_append_addr m2 StunAttr.DESTINATION_ADDRESS to_).2
              StunAttr.OPTIONS 1).2 StunAttr.DATA buf).2 := by
        simp [send_message, hm0, hnd, hg, hcond, h2, append_ok_of_zero _ (B.append32 _ _ _),
          append_ok_of_zero _ (B.append_addr _ _ _), append_ok_of_zero _ (B.append_bytes _ _ _)]
      unfold socket_send
      simp only [hfind, hnd, if_false, hmsg, B.finish_message, if_true]
    · rw [O.append_bytes, O.append32_options _ 1 hopt3]
      simp only [true_iff]
      exact (current_binding_is_iff _ _).mp hcond
    · intro hno
      exact absurd ((current_binding_is_iff _ _).mp hcond) hno
  · refine ⟨(L.stun_message_append_bytes
      (L.stun_message_append_addr m2 StunAttr.DESTINATION_ADDRESS to_).2
      StunAttr.DATA buf).2, ?_, ?_, ?_, ?_⟩
    · simp [send_message, hm0, hnd, hcond, h2, append_ok_of_zero _ (B.append32 _ _ _),
        append_ok_of_zero _ (B.append_addr _ _ _), append_ok_of_zero _ (B.append_bytes _ _ _)]
    · have hmsg : send_message L priv to_ buf
          (L.stun_agent_init_request priv.agent StunMethod.STUN_SEND).2 = some
          (L.stun_message_append_bytes
            (L.stun_message_append_addr m2 StunAttr.DESTINATION_ADDRESS to_).2
            StunAttr.DATA buf).2 := by
        simp [send_message, hm0, hnd, hcond, h2, append_ok_of_zero _ (B.append32 _ _ _),
          append_ok_of_zero _ (B.append_addr _ _ _), append_ok_of_zero _ (B.append_bytes _ _ _)]
      unfold socket_send
      simp only [hfind, hnd, if_false, hmsg, B.finish_message, if_true]
    · rw [O.append_bytes, hopt3]
      constructor
      · intro h
        cases h
      · intro h
        exact absurd ((current_binding_is_iff _ _).mpr h) hcond
    · intro _
      rw [O.append_bytes, hopt3]

/-- Witness for C19: GOOGLE `set_peer (peerP)` then `send (peerP, "x")` with
the test library. -/
theorem google_options_flag_witness :
    google_pending.compatibility = NiceUdpTurnSocketCompatibility.GOOGLE ∧
    (∀ b ∈ google_pending.channels, b.peer ≠ peerP) ∧
    google_pending.current_binding = some ⟨peerP, 0⟩ ∧
    ∃ m,
      send_message fakeLib google_pending peerP [120]
        (fakeLib.stun_agent_init_request google_pending.agent StunMethod.STUN_SEND).2 = some m ∧
      socket_send fakeLib google_pending peerP [120] =
        ⟨true,
          { google_pending with agent := (fakeLib.stun_agent_finish_message
              (fakeLib.stun_agent_init_request google_pending.agent StunMethod.STUN_SEND).1 m
              google_pending.password).1 },
          [⟨google_pending.server_addr, (fakeLib.stun_agent_finish_message
              (fakeLib.stun_agent_init_request google_pending.agent StunMethod.STUN_SEND).1 m
              google_pending.password).2⟩]⟩ ∧
      (fakeLib.stun_message_find32 m StunAttr.OPTIONS = some 1 ↔
        ∃ cb, google_pending.current_binding = some cb ∧ cb.peer = peerP) ∧
      ((¬ ∃ cb, google_pending.current_binding = some cb ∧ cb.peer = peerP) →
        fakeLib.stun_message_find32 m StunAttr.OPTIONS = none) :=
  ⟨by decide, by decide, by decide,
    google_options_flag fakeLib google_pending peerP [120] (by decide) (by decide)
      fakeLib_builds fakeLib_options⟩

/-! ### The channel scan on the bindings of a DRAFT9 socket -/

/-- In a list whose channels are `base, base + 1, ...` in order, the binding at
position `j` has channel `base + j`. -/
theorem consecutive_getElem (cs : List ChannelBinding) (base : Nat)
    (h : cs.map ChannelBinding.channel = List.range' base cs.length)
    (j : Nat) (hj : j < cs.length) : (cs[j]).channel = base + j := by
  have h1 := congrArg (fun l => l[j]?) h
  simpa [hj] using h1

/-- The channel scan on bindings with channels `base, base + 1, ...` in list
order (no wrap-around): from candidate `base + k` and cursor at position `j`
it can only end with `base + length`, the lowest unused channel, and it does
end within `(length - k) * (length + 1) + (length - j) + 1` iterations. -/
theorem scan_channels_consecutive (cs : List ChannelBinding) (base : Nat)
    (h : cs.map ChannelBinding.channel = List.range' base cs.length)
    (hb : base + cs.length < 65536) :
    ∀ (fuel k j : Nat), j ≤ k → k ≤ cs.length → (j = 0 → k = 0) →
      (scan_channels cs fuel (base + k) (cs.drop j) = none ∨
        scan_channels cs fuel (base + k) (cs.drop j) = some (base + cs.length)) ∧
      ((cs.length - k) * (cs.length + 1) + (cs.length - j) + 1 ≤ fuel →
        scan_channels cs fuel (base + k) (cs.drop j) = some (base + cs.length)) := by
  intro fuel
  induction fuel with
  | zero =>
    intro k j hjk hk h0
    by_cases hj : j < cs.length
    · rw [List.drop_eq_getElem_cons hj]
      simp [scan_channels]
    · have hnil : cs.drop j = [] := List.drop_eq_nil_of_le (by omega)
      have hkn : k = cs.length := by omega
      rw [hnil, hkn]
      simp [scan_channels]
  | succ fuel ih =>
    intro k j hjk hk h0
    by_cases hj : j < cs.length
    · rw [List.drop_eq_getElem_cons hj]
      have hch := consecutive_getElem cs base h j hj
      simp only [scan_channels, hch]
      by_cases hkj : k = j
      · subst hkj
        simp only [if_true]
        have hmod : (base + k + 1) % 65536 = base + (k + 1) := by
          rw [Nat.mod_eq_of_lt (by omega)]
          omega
        rw [hmod, ← List.drop_one]
        have := ih (k + 1) 1 (by omega) (by omega) (by omega)
        refine ⟨this.1, fun hf => this.2 ?_⟩
        have e1 : cs.length - k = (cs.length - (k + 1)) + 1 := by omega
        rw [e1, Nat.add_mul] at hf
        omega
      · have hne : ¬ (base + k = base + j) := by omega
        simp only [hne, if_false]
        have := ih k (j + 1) (by omega) hk (by omega)
        refine ⟨this.1, fun hf => this.2 ?_⟩
        omega
    · have hnil : cs.drop j = [] := List.drop_eq_nil_of_le (by omega)
      have hkn : k = cs.length := by omega
      rw [hnil, hkn]
      simp [scan_channels]

/-- The scan of `set_peer` on a DRAFT9 socket of the shape `Draft9Channels`:
whenever it ends, it ends with channel `0x4000 + length`, and it ends within
`(length + 1) ^ 2` iterations. -/
theorem scan_channels_draft9 {Agent : Type} (priv : turn_priv Agent)
    (hinv : Draft9Channels priv) (fuel : Nat) :
    (scan_channels priv.channels fuel 0x4000 priv.channels = none ∨
      scan_channels priv.channels fuel 0x4000 priv.channels =
        some (0x4000 + priv.channels.length)) ∧
    ((priv.channels.length + 1) ^ 2 ≤ fuel →
      scan_channels priv.channels fuel 0x4000 priv.channels =
        some (0x4000 + priv.channels.length)) := by
  obtain ⟨_, hmap, hlen, _⟩ := hinv
  have key := scan_channels_consecutive priv.channels 0x4000 hmap (by omega) fuel 0 0
    (Nat.le_refl _) (Nat.zero_le _) (fun _ => rfl)
  simp only [Nat.add_zero, List.drop_zero, Nat.sub_zero] at key
  refine ⟨key.1, fun hf => key.2 ?_⟩
  have e : (priv.channels.length + 1) ^ 2 =
      priv.channels.length * (priv.channels.length + 1) + priv.channels.length + 1 := by
    ring
  omega

/-! ### What a call can do to the bindings and the pending binding -/

/-- Keeping everything but the agent is within `KeepsOrCommits`. -/
theorem keepsOrCommits_agent {Agent : Type} (priv : turn_priv Agent) (a : Agent) :
    KeepsOrCommits priv { priv with agent := a } :=
  ⟨rfl, Or.inl ⟨rfl, rfl⟩⟩

/-- The lock action, taken outside DRAFT9, is within `KeepsOrCommits`. -/
theorem parse_recv_lock_cases {Agent : Type} (priv : turn_priv Agent) (buf : List Nat)
    (hc : priv.compatibility ≠ NiceUdpTurnSocketCompatibility.DRAFT9) (a : Agent) :
    KeepsOrCommits priv (parse_recv_lock { priv with agent := a } buf).priv := by
  obtain ⟨agent, channels, pending, srv, u, pw, compat⟩ := priv
  cases pending with
  | none => exact ⟨rfl, Or.inl ⟨rfl, rfl⟩⟩
  | some cb => exact ⟨rfl, Or.inr (Or.inr ⟨cb, hc, rfl, rfl, rfl⟩)⟩

/-- Every path of `nice_udp_turn_socket_parse_recv` keeps the dialect and
either leaves the bindings and the pending binding as they are, or appends
the pending binding to the bindings and clears it, or (outside DRAFT9)
replaces the bindings by the pending binding and clears it. -/
theorem parse_recv_state_cases {Agent Msg : Type} (L : StunLib Agent Msg)
    (priv : turn_priv Agent) (len : Nat) (buf : List Nat) (recv_from : NiceAddress)
    (recv_buf : List Nat) (recv_len : Nat) :
    KeepsOrCommits priv
      (nice_udp_turn_socket_parse_recv L priv len buf recv_from recv_buf recv_len).priv := by
  unfold nice_udp_turn_socket_parse_recv
  split
  · simp only []
    split
    · exact keepsOrCommits_agent priv _
    · split
      · exact keepsOrCommits_agent priv _
      · split
        · split
          · rename_i hg
            apply parse_recv_lock_cases
            have : priv.compatibility = NiceUdpTurnSocketCompatibility.GOOGLE := hg.1
            rw [this]
            decide
          · exact keepsOrCommits_agent priv _
        · split
          · split
            · rename_i hm
              apply parse_recv_lock_cases
              have : priv.compatibility = NiceUdpTurnSocketCompatibility.MSN := hm
              rw [this]
              decide
            · exact keepsOrCommits_agent priv _
          · split
            · split
              · simp only []
                rw [priv_send_channel_bind_frame]
                exact keepsOrCommits_agent priv _
              · exact keepsOrCommits_agent priv _
            · split
              · split
                · rename_i cb hcb
                  exact ⟨rfl, Or.inr (Or.inl ⟨cb, hcb, rfl, rfl⟩)⟩
                · exact keepsOrCommits_agent priv _
              · split
                · split
                  · exact keepsOrCommits_agent priv _
                  · split
                    · exact keepsOrCommits_agent priv _
                    · exact keepsOrCommits_agent priv _
                · exact keepsOrCommits_agent priv _
  · exact ⟨rfl, Or.inl ⟨rfl, rfl⟩⟩

/-! ### The DRAFT9 channel invariant -/

/-- A new DRAFT9 socket has the shape `Draft9Channels`. -/
theorem draft9Channels_create {Agent : Type} (agent0 : Agent) (server_addr : NiceAddress)
    (username password : List Nat) :
    Draft9Channels (nice_udp_turn_create_socket_full agent0 server_addr username password
      NiceUdpTurnSocketCompatibility.DRAFT9) := by
  refine ⟨rfl, rfl, by simp [nice_udp_turn_create_socket_full], ?_⟩
  intro b hb
  simp [nice_udp_turn_create_socket_full] at hb

/-- The shape `Draft9Channels` survives every change within `KeepsOrCommits`. -/
theorem draft9Channels_of_keeps {Agent : Type} (priv next : turn_priv Agent)
    (hinv : Draft9Channels priv) (hk : KeepsOrCommits priv next) :
    Draft9Channels next := by
  obtain ⟨hd, hmap, hlen, hpend⟩ := hinv
  obtain ⟨hc, hcases⟩ := hk
  rcases hcases with ⟨h1, h2⟩ | ⟨cb, hcb, h1, h2⟩ | ⟨cb, hnd, _, _, _⟩
  · refine ⟨hc.trans hd, ?_, ?_, ?_⟩
    · rw [h1]
      exact hmap
    · rw [h1]
      exact hlen
    · intro b hb
      rw [h1]
      exact hpend b (h2 ▸ hb)
  · obtain ⟨hch, hlt⟩ := hpend cb hcb
    refine ⟨hc.trans hd, ?_, ?_, ?_⟩
    · rw [h1, List.map_append, hmap, List.length_append, List.length_singleton,
        List.range'_concat]
      simp [hch]
    · rw [h1, List.length_append, List.length_singleton]
      omega
    · intro b hb
      rw [h2] at hb
      cases hb
  · exact absurd hd hnd

/-- `set_peer` keeps the shape `Draft9Channels`. -/
theorem draft9Channels_set_peer {Agent Msg : Type} (L : StunLib Agent Msg) (fuel : Nat)
    (priv : turn_priv Agent) (peer : NiceAddress) (r : Result Agent)
    (hinv : Draft9Channels priv)
    (hr : nice_udp_turn_socket_set_peer L fuel priv peer = some r) :
    Draft9Channels r.priv := by
  have hscan := (scan_channels_draft9 priv hinv fuel).1
  obtain ⟨hd, hmap, hlen, hpend⟩ := hinv
  unfold nice_udp_turn_socket_set_peer at hr
  cases hp : priv.current_binding with
  | some cb =>
    simp only [hp, Option.isSome_some, if_true, Option.some.injEq] at hr
    subst hr
    exact ⟨hd, hmap, hlen, hpend⟩
  | none =>
    simp only [hp, Option.isSome_none, Bool.false_eq_true, if_false, hd] at hr
    rcases hscan with hs | hs
    · simp [hs] at hr
    · simp only [hs] at hr
      have hf := priv_send_channel_bind_frame L priv none (0x4000 + priv.channels.length) peer
      split at hr
      · rename_i hrange
        split at hr
        · cases hr
          rw [hf]
          refine ⟨hd, hmap, hlen, ?_⟩
          intro b hb
          simp only [Option.some.injEq] at hb
          subst hb
          exact ⟨rfl, hrange.2⟩
        · cases hr
          rw [hf]
          refine ⟨hd, hmap, hlen, ?_⟩
          intro b hb
          exact hpend b hb
      · cases hr
        exact ⟨hd, hmap, hlen, hpend⟩

/-- Every call keeps the shape `Draft9Channels`. -/
theorem draft9Channels_step {Agent Msg : Type} (L : StunLib Agent Msg)
    (priv : turn_priv Agent) (op : Op) (hinv : Draft9Channels priv) :
    Draft9Channels (step L priv op) := by
  cases op with
  | set_peer fuel peer =>
    simp only [step]
    cases hr : nice_udp_turn_socket_set_peer L fuel priv peer with
    | none => exact hinv
    | some r => exact draft9Channels_set_peer L fuel priv peer r hinv hr
  | send to_ buf =>
    simp only [step]
    rw [(socket_send_frame L priv to_ buf).2.1]
    exact draft9Channels_of_keeps priv _ hinv (keepsOrCommits_agent priv _)
  | recv len buf base_ret recv_from recv_buf =>
    simp only [step, socket_recv]
    exact draft9Channels_of_keeps priv _ hinv (parse_recv_state_cases L priv len buf _ _ _)

/-- Every sequence of calls keeps the shape `Draft9Channels`. -/
theorem draft9Channels_run {Agent Msg : Type} (L : StunLib Agent Msg) (ops : List Op) :
    ∀ priv : turn_priv Agent, Draft9Channels priv → Draft9Channels (run L priv ops) := by
  induction ops with
  | nil => exact fun _ h => h
  | cons op rest ih =>
    intro priv hinv
    exact ih (step L priv op) (draft9Channels_step L priv op hinv)

/-- C12: in DRAFT9, in every state reached from a newly created socket by any
sequence of `set_peer`, `send` and `recv` calls (with any STUN library, any
scan fuel and any traffic from the base transport), every channel of the
bindings and of the pending binding lies in `[0x4000, 0xFFFE]` and no channel
value occurs twice across the bindings together with the pending binding. -/
theorem draft9_channels_invariant {Agent Msg : Type} (L : StunLib Agent Msg)
    (agent0 : Agent) (server_addr : NiceAddress) (username password : List Nat)
    (ops : List Op) :
    (∀ b ∈ (run L (nice_udp_turn_create_socket_full agent0 server_addr username password
        NiceUdpTurnSocketCompatibility.DRAFT9) ops).channels,
      0x4000 ≤ b.channel ∧ b.channel ≤ 0xFFFE) ∧
    (∀ b, (run L (nice_udp_turn_create_socket_full agent0 server_addr username password
        NiceUdpTurnSocketCompatibility.DRAFT9) ops).current_binding = some b →
      0x4000 ≤ b.channel ∧ b.channel ≤ 0xFFFE) ∧
    ((run L (nice_udp_turn_create_socket_full agent0 server_addr username password
        NiceUdpTurnSocketCompatibility.DRAFT9) ops).channels.map ChannelBinding.channel ++
      ((run L (nice_udp_turn_create_socket_full agent0 server_addr username password
        NiceUdpTurnSocketCompatibility.DRAFT9) ops).current_binding.map
          ChannelBinding.channel).toList).Nodup := by
  obtain ⟨_, hmap, hlen, hpend⟩ := draft9Channels_run L ops _
    (draft9Channels_create agent0 server_addr username password)
  generalize run L (nice_udp_turn_create_socket_full agent0 server_addr username password
    NiceUdpTurnSocketCompatibility.DRAFT9) ops = s at hmap hlen hpend
  refine ⟨?_, ?_, ?_⟩
  · intro b hb
    have hmem : b.channel ∈ s.channels.map ChannelBinding.channel :=
      List.mem_map_of_mem _ hb
    rw [hmap, List.mem_range'_1] at hmem
    omega
  · intro b hb
    obtain ⟨h1, h2⟩ := hpend b hb
    omega
  · cases hp : s.current_binding with
    | none =>
      simp only [Option.map_none', Option.toList_none, List.append_nil]
      rw [hmap]
      exact List.nodup_range' _ _
    | some b =>
      obtain ⟨h1, _⟩ := hpend b hp
      simp only [Option.map_some', Option.toList_some]
      rw [hmap, h1]
      have := @List.range'_concat 1 0x4000 s.channels.length
      simp only [Nat.one_mul] at this
      rw [← this]
      exact List.nodup_range' _ _

/-- On a DRAFT9 socket reached from a new one, the channel scan of `set_peer`
ends within `(number of bindings + 1) ^ 2` iterations, so `set_peer` returns
with that much fuel. -/
theorem draft9_set_peer_returns {Agent Msg : Type} (L : StunLib Agent Msg)
    (agent0 : Agent) (server_addr : NiceAddress) (username password : List Nat)
    (ops : List Op) (fuel : Nat) (peer : NiceAddress)
    (hfuel : ((run L (nice_udp_turn_create_socket_full agent0 server_addr username password
      NiceUdpTurnSocketCompatibility.DRAFT9) ops).channels.length + 1) ^ 2 ≤ fuel) :
    (nice_udp_turn_socket_set_peer L fuel
      (run L (nice_udp_turn_create_socket_full agent0 server_addr username password
        NiceUdpTurnSocketCompatibility.DRAFT9) ops) peer).isSome = true := by
  have hinv := draft9Channels_run L ops _
    (draft9Channels_create agent0 server_addr username password)
  generalize run L (nice_udp_turn_create_socket_full agent0 server_addr username password
    NiceUdpTurnSocketCompatibility.DRAFT9) ops = s at hinv hfuel
  have hs := (scan_channels_draft9 s hinv fuel).2 hfuel
  unfold nice_udp_turn_socket_set_peer
  split
  · rfl
  · simp only [hinv.1, hs]
    split
    · split <;> rfl
    · rfl

/-! ### Bound destinations in MSN and GOOGLE -/

/-- A destination that has a binding is found by the lookup of `socket_send`. -/
theorem send_lookup_some (cs : List ChannelBinding) (to_ : NiceAddress)
    (h : ∃ b ∈ cs, b.peer = to_) :
    ∃ b, cs.find? (fun x => nice_address_equal x.peer to_) = some b := by
  cases hf : cs.find? (fun x => nice_address_equal x.peer to_) with
  | some b => exact ⟨b, rfl⟩
  | none =>
    obtain ⟨b, hb, hp⟩ := h
    rw [List.find?_eq_none] at hf
    have := hf b hb
    simp [nice_address_equal, hp] at this

/-- C23: in MSN and GOOGLE, for every destination `to` that has a binding and
every payload, `send (to, payload)` builds no STUN message (the result does
not depend on the STUN library and the agent is untouched), returns true,
leaves the state unchanged and places exactly one datagram on the base
transport, addressed to `to` itself, whose bytes are the raw payload. -/
theorem bound_send_passthrough {Agent Msg : Type} (L : StunLib Agent Msg)
    (priv : turn_priv Agent) (to_ : NiceAddress) (buf : List Nat)
    (hc : priv.compatibility = NiceUdpTurnSocketCompatibility.MSN ∨
      priv.compatibility = NiceUdpTurnSocketCompatibility.GOOGLE)
    (hb : ∃ b ∈ priv.channels, b.peer = to_) :
    socket_send L priv to_ buf = ⟨true, priv, [⟨to_, buf⟩]⟩ := by
  obtain ⟨b, hfind⟩ := send_lookup_some priv.channels to_ hb
  have hnd : priv.compatibility ≠ NiceUdpTurnSocketCompatibility.DRAFT9 := by
    rcases hc with h | h <;> rw [h] <;> decide
  unfold socket_send
  simp only [hfind, hnd, false_and, if_false]

/-- Witness for C23: in the GOOGLE state where `peerQ` is bound,
`send (peerQ, "hi")` hands the two bytes to the base transport for `peerQ`,
and a server other than `peerQ` sees nothing. -/
theorem bound_send_passthrough_witness :
    (google_rebinding.compatibility = NiceUdpTurnSocketCompatibility.MSN ∨
      google_rebinding.compatibility = NiceUdpTurnSocketCompatibility.GOOGLE) ∧
    (∃ b ∈ google_rebinding.channels, b.peer = peerQ) ∧
    peerQ ≠ google_rebinding.server_addr ∧
    socket_send fakeLib google_rebinding peerQ [104, 105] =
      ⟨true, google_rebinding, [⟨peerQ, [104, 105]⟩]⟩ :=
  ⟨by decide, ⟨⟨peerQ, 0⟩, by decide, rfl⟩, by decide,
    bound_send_passthrough fakeLib google_rebinding peerQ [104, 105] (by decide)
      ⟨⟨peerQ, 0⟩, by decide, rfl⟩⟩

/-! ### The count returned by the classification step -/

/-- Without a DRAFT9 channel match the classification step returns at most
the number of bytes received. -/
theorem classify_count_le_received {Agent : Type} (priv : turn_priv Agent) (len : Nat)
    (buf : List Nat) (recv_from : NiceAddress) (recv_buf : List Nat) (recv_len : Nat)
    (hmiss : priv.compatibility ≠ NiceUdpTurnSocketCompatibility.DRAFT9 ∨
      recv_find_binding priv.compatibility recv_buf priv.channels = none)
    (hn : recv_len < 2 ^ 31) :
    (parse_recv_classify priv len buf recv_from recv_buf recv_len).ret =
      ((min len recv_len : Nat) : Int) ∧
    (parse_recv_classify priv len buf recv_from recv_buf recv_len).ret ≤ (recv_len : Int) := by
  have hnot : ¬ ((recv_find_binding priv.compatibility recv_buf priv.channels).isSome = true ∧
      priv.compatibility = NiceUdpTurnSocketCompatibility.DRAFT9) := by
    rcases hmiss with h | h
    · exact fun hh => h hh.2
    · rw [h]
      simp
  have hret : (parse_recv_classify priv len buf recv_from recv_buf recv_len).ret =
      ((min len recv_len : Nat) : Int) := by
    simp only [parse_recv_classify, hnot, if_false, ternary_min]
    exact toGint_of_lt _ (by omega)
  refine ⟨hret, ?_⟩
  rw [hret]
  exact_mod_cast Nat.min_le_right len recv_len

/-- C21 (evaluation at the failing input): in the DRAFT9 state where `peerP`
is bound to channel `0x4000`, a datagram of four bytes `40 00 FF FF` (a
ChannelData header announcing 65535 bytes, with no payload) arrives in a
scratch buffer that holds stale bytes behind it.  With a user buffer of eight
bytes `recv` returns 8, although `n - 4 = 0` payload bytes were received, and
copies eight stale bytes.  A datagram `40 00 00 05 'a' 'b'` of six bytes
likewise yields 5, three bytes more than its payload. -/
theorem recv_trusts_wire_length :
    socket_recv fakeLib draft9_bound 8 [0, 0, 0, 0, 0, 0, 0, 0] 4 peerR
        [0x40, 0, 0xFF, 0xFF, 9, 9, 9, 9, 9, 9, 9, 9, 9, 9] =
      ⟨8, some peerP, [9, 9, 9, 9, 9, 9, 9, 9], draft9_bound, []⟩ ∧
    socket_recv fakeLib draft9_bound 8 [0, 0, 0, 0, 0, 0, 0, 0] 6 peerR
        [0x40, 0, 0, 5, 97, 98, 9, 9, 9, 9, 9, 9, 9, 9] =
      ⟨5, some peerP, [97, 98, 9, 9, 9, 0, 0, 0], draft9_bound, []⟩ := by
  decide

/-! ### Termination of the channel scan -/

/-- A list of fewer than `2^16` numbers misses some 16-bit value. -/
theorem exists_unused_channel (l : List Nat) (h : l.length < 65536) :
    ∃ v, v < 65536 ∧ v ∉ l := by
  by_contra hall
  have hsub : Finset.range 65536 ⊆ l.toFinset := by
    intro v hv
    rw [List.mem_toFinset]
    by_contra hnot
    exact hall ⟨v, Finset.mem_range.mp hv, hnot⟩
  have h1 := Finset.card_le_card hsub
  have h2 := List.toFinset_card_le l
  rw [Finset.card_range] at h1
  omega

/-- The scan from a cursor inside the tail of the bindings: when the value `d`
steps ahead of the candidate (modulo `2^16`) is the channel of no binding of
the tail, the scan ends within `cursor length + d * tail length` iterations. -/
theorem scan_channels_tail_returns (cs : List ChannelBinding) :
    ∀ (d : Nat) (i : List ChannelBinding) (channel fuel : Nat),
      (∀ x ∈ i, x ∈ cs.tail) → channel < 65536 →
      (channel + d) % 65536 ∉ cs.tail.map ChannelBinding.channel →
      i.length + d * cs.tail.length ≤ fuel →
      (scan_channels cs fuel channel i).isSome = true := by
  intro d
  induction d with
  | zero =>
    intro i
    induction i with
    | nil =>
      intro channel fuel _ _ _ _
      simp [scan_channels]
    | cons b rest ih =>
      intro channel fuel hsub hch hfree hfuel
      have hb : b ∈ cs.tail := hsub b (List.mem_cons_self _ _)
      have hne : channel ≠ b.channel := by
        intro heq
        apply hfree
        rw [Nat.add_zero, Nat.mod_eq_of_lt hch, heq]
        exact List.mem_map_of_mem _ hb
      cases fuel with
      | zero => simp at hfuel
      | succ f =>
        simp only [scan_channels, hne, if_false]
        apply ih channel f (fun x hx => hsub x (List.mem_cons_of_mem _ hx)) hch hfree
        simp only [List.length_cons] at hfuel
        omega
  | succ d ihd =>
    intro i
    induction i with
    | nil =>
      intro channel fuel _ _ _ _
      simp [scan_channels]
    | cons b rest ih =>
      intro channel fuel hsub hch hfree hfuel
      simp only [List.length_cons] at hfuel
      have hmul : (d + 1) * cs.tail.length = d * cs.tail.length + cs.tail.length := by
        rw [Nat.add_mul, Nat.one_mul]
      cases fuel with
      | zero => omega
      | succ f =>
        simp only [scan_channels]
        split
        · apply ihd cs.tail ((channel + 1) % 65536) f (fun x hx => hx)
            (Nat.mod_lt _ (by omega))
          · have : ((channel + 1) % 65536 + d) % 65536 = (channel + (d + 1)) % 65536 := by
              omega
            rw [this]
            exact hfree
          · omega
        · apply ih channel f (fun x hx => hsub x (List.mem_cons_of_mem _ hx)) hch hfree
          omega

/-- The scan from any cursor: when the scan restarted with the next candidate
ends for every fuel from `K` on, the scan from the cursor ends within
`cursor length + K` iterations. -/
theorem scan_channels_cursor_returns (cs : List ChannelBinding) (K : Nat) :
    ∀ (i : List ChannelBinding) (channel fuel : Nat),
      (∀ f, K ≤ f → (scan_channels cs f ((channel + 1) % 65536) cs.tail).isSome = true) →
      i.length + K ≤ fuel →
      (scan_channels cs fuel channel i).isSome = true := by
  intro i
  induction i with
  | nil =>
    intro channel fuel _ _
    simp [scan_channels]
  | cons b rest ih =>
    intro channel fuel hnext hfuel
    simp only [List.length_cons] at hfuel
    cases fuel with
    | zero => omega
    | succ f =>
      simp only [scan_channels]
      split
      · exact hnext f (by omega)
      · exact ih channel f hnext (by omega)

/-- The channel scan of `set_peer` ends on every bindings list with fewer than
`2^16` entries, within `65537 * length` iterations, whatever the order and
the values of the channels. -/
theorem scan_channels_returns (cs : List ChannelBinding) (fuel : Nat)
    (hlen : cs.length < 65536) (hfuel : 65537 * cs.length ≤ fuel) :
    (scan_channels cs fuel 0x4000 cs).isSome = true := by
  have htl : cs.tail.length ≤ cs.length := by
    rw [List.length_tail]
    omega
  obtain ⟨v, hv, hfree⟩ := exists_unused_channel (cs.tail.map ChannelBinding.channel)
    (by rw [List.length_map]; omega)
  apply scan_channels_cursor_returns cs (65536 * cs.tail.length) cs 0x4000 fuel
  · intro f hf
    have hd : (v + 65536 - 0x4001) % 65536 ≤ 65535 := by omega
    apply scan_channels_tail_returns cs ((v + 65536 - 0x4001) % 65536) cs.tail
      ((0x4000 + 1) % 65536) f (fun x hx => hx) (by omega)
    · have : ((0x4000 + 1) % 65536 + (v + 65536 - 0x4001) % 65536) % 65536 = v := by omega
      rw [this]
      exact hfree
    · have hmul := Nat.mul_le_mul_right cs.tail.length hd
      omega
  · omega

/-- With enough fuel for the channel scan `set_peer` returns. -/
theorem set_peer_returns_of_scan {Agent Msg : Type} (L : StunLib Agent Msg) (fuel : Nat)
    (priv : turn_priv Agent) (peer : NiceAddress)
    (hscan : (scan_channels priv.channels fuel 0x4000 priv.channels).isSome = true) :
    (nice_udp_turn_socket_set_peer L fuel priv peer).isSome = true := by
  obtain ⟨c, hc⟩ := Option.isSome_iff_exists.mp hscan
  unfold nice_udp_turn_socket_set_peer
  split
  · rfl
  · split
    · simp only [hc]
      split
      · split <;> rfl
      · rfl
    · rfl
    · rfl

/-- C22: the DRAFT9 channel scan of `set_peer` terminates on every bindings
list with fewer than 65536 entries: with fuel `65537 * length` (or more) the
scan ends with a channel and `set_peer` returns, for every STUN library, state
and peer.  Every state reached from a newly created DRAFT9 socket by
`set_peer`, `send` and `recv` calls has fewer than 65536 bindings, so the scan
terminates there. -/
theorem channel_scan_terminates {Agent Msg : Type} (L : StunLib Agent Msg)
    (priv : turn_priv Agent) (peer : NiceAddress) (fuel : Nat)
    (hlen : priv.channels.length < 65536)
    (hfuel : 65537 * priv.channels.length ≤ fuel) :
    (∃ c, scan_channels priv.channels fuel 0x4000 priv.channels = some c) ∧
    (nice_udp_turn_socket_set_peer L fuel priv peer).isSome = true ∧
    (∀ (agent0 : Agent) (server_addr : NiceAddress) (username password : List Nat)
        (ops : List Op) (f : Nat),
      (run L (nice_udp_turn_create_socket_full agent0 server_addr username password
        NiceUdpTurnSocketCompatibility.DRAFT9) ops).channels.length < 65536 ∧
      (65537 * (run L (nice_udp_turn_create_socket_full agent0 server_addr username password
          NiceUdpTurnSocketCompatibility.DRAFT9) ops).channels.length ≤ f →
        (nice_udp_turn_socket_set_peer L f
          (run L (nice_udp_turn_create_socket_full agent0 server_addr username password
            NiceUdpTurnSocketCompatibility.DRAFT9) ops) peer).isSome = true)) := by
  have hscan := scan_channels_returns priv.channels fuel hlen hfuel
  refine ⟨Option.isSome_iff_exists.mp hscan, set_peer_returns_of_scan L fuel priv peer hscan, ?_⟩
  intro agent0 server_addr username password ops f
  have hinv := draft9Channels_run L ops _
    (draft9Channels_create agent0 server_addr username password)
  have hl : (run L (nice_udp_turn_create_socket_full agent0 server_addr username password
      NiceUdpTurnSocketCompatibility.DRAFT9) ops).channels.length < 65536 := by
    have := hinv.2.2.1
    omega
  exact ⟨hl, fun hf => set_peer_returns_of_scan L f _ peer
    (scan_channels_returns _ f hl hf)⟩

/-- Witness for C22: the two bindings in reverse channel order, on which the
restart of the scan matters, with fuel `65537 * 2`. -/
theorem channel_scan_terminates_witness :
    draft9_unordered.channels.length < 65536 ∧
    65537 * draft9_unordered.channels.length ≤ 131074 ∧
    (∃ c, scan_channels draft9_unordered.channels 131074 0x4000 draft9_unordered.channels =
      some c) ∧
    (nice_udp_turn_socket_set_peer fakeLib 131074 draft9_unordered peerR).isSome = true :=
  ⟨by decide, by decide,
    (channel_scan_terminates fakeLib draft9_unordered peerR 131074 (by decide) (by decide)).1,
    (channel_scan_terminates fakeLib draft9_unordered peerR 131074 (by decide) (by decide)).2.1⟩

/-! ### The channel allocated on a reachable DRAFT9 socket -/

end UdpTurn
